import Mathlib

/-!
Verification development for the autonomo neuroevolution sandbox.

The JavaScript source is shallowly embedded over the rationals: every finite
IEEE-754 double is a rational number, and none of the properties verified here
depends on rounding, so machine floats are modelled as exact rationals.  A JS
Number that may be non-finite (NaN or an infinity) is modelled as Option of a
rational, with the value none standing for any non-finite number; arithmetic on
such values propagates none, matching NaN propagation (including 0 * NaN = NaN).

Transcendental library calls (Math.tanh, the exp-based sigmoid, Math.sqrt,
cos, sin, atan2) and the random sources (Math.random, the Box-Muller gaussian,
p5 random2D) are bundled as parameters in an Env structure, because no claim
below depends on their numeric values; theorems quantify over the Env.  Closed
witnesses and counterexamples instantiate the Env with an explicit record
(env0) whose sqrt component is exact on perfect squares; wherever a concrete
statement is evaluated, the abstract components are either unused on the
evaluated path or their values provably do not affect the stated fact.

The pseudo-random draws are modelled as an indexed family of independent
values, one coordinate per dynamic call site, rather than one shared sequential
stream; all the properties proved here are universally quantified over the
draws, so they hold in particular for every realisation of the shared stream.
-/

set_option maxHeartbeats 1600000

/- The Batteries rational arithmetic is marked irreducible, which blocks the
kernel evaluation used by decide on the concrete traces below; restore the
default reducibility locally.  This changes nothing about the semantics. -/
attribute [local semireducible] Rat.add Rat.mul Rat.inv Rat.sub Rat.ofScientific

/-- A JavaScript Number: some q when finite, none when NaN or an infinity. -/
abbrev JSNum := Option ℚ

/-- JS addition: finite plus finite is exact, anything with a non-finite
operand is modelled as non-finite. -/
def jadd : JSNum → JSNum → JSNum
  | some a, some b => some (a + b)
  | _, _ => none

/-- JS multiplication; note 0 * NaN = NaN and 0 * Infinity = NaN, so none is
absorbing here as well. -/
def jmul : JSNum → JSNum → JSNum
  | some a, some b => some (a * b)
  | _, _ => none

/-- The isFinite test of JS. -/
def jsIsFinite : JSNum → Bool
  | some _ => true
  | none => false

/-- One step of the input-sanitising loop of the 12-input forward:
if (!isFinite(inputs[i])) inputs[i] = 0. -/
def sanitizeIn (x : JSNum) : JSNum := if jsIsFinite x then x else some 0

/-- JS x || 0 applied to a defined finite number: 0 is falsy, everything
else passes through, so the value is preserved. -/
def orZero (x : ℚ) : ℚ := if x = 0 then 0 else x

/-- Integer square root by linear search: the first k with n < k * k, minus
one.  Exact on perfect squares, which is all the concrete traces below use. -/
def natSqrt (n : ℕ) : ℕ := (List.range (n + 2)).findIdx (fun k => decide (n < k * k)) - 1

/-- Stand-in for Math.sqrt on rationals, exact whenever numerator and
denominator are perfect squares (true at every concrete evaluation below). -/
def sqrtQ (q : ℚ) : ℚ := (natSqrt q.num.toNat : ℚ) / (natSqrt q.den : ℚ)

/-- p5 lerp(a, b, t) = a + (b - a) * t. -/
def lerpQ (a b t : ℚ) : ℚ := a + (b - a) * t

/-- JS remainder a % b for the nonnegative operands the source applies it to. -/
def jsMod (a b : ℚ) : ℚ := a - b * (⌊a / b⌋ : ℤ)

/-- The abstract environment: transcendental library functions and indexed
random draws.  rand s k is the k-th Math.random() draw of call site s,
gauss s k the corresponding Box-Muller gaussian draw, rand2D the unit vector
returned by p5.Vector.random2D, bearingF the heading-relative bearing
computed by Creature.angleToPoint (an atan2 plus angle wrapping, abstracted
as a pure function of position, heading and target). -/
structure Env where
  sqrtF : ℚ → ℚ
  tanhF : ℚ → ℚ
  sigmoidF : ℚ → ℚ
  sigmoid2F : ℚ → ℚ
  bearingF : ℚ × ℚ → ℚ → ℚ × ℚ → ℚ
  cosF : ℚ → ℚ
  sinF : ℚ → ℚ
  piQ : ℚ
  rand : ℕ → ℕ → ℚ
  gauss : ℕ → ℕ → ℚ
  rand2D : ℕ → ℚ × ℚ

/-- Math.random() always lands in [0, 1). -/
def RandRange (env : Env) : Prop := ∀ s k, 0 ≤ env.rand s k ∧ env.rand s k < 1

/-! ## Neural network, 12-10-4 variant (src/neural.js lines 3-190) -/

structure NN1 where
  inputSize : ℕ
  hiddenSize : ℕ
  outputSize : ℕ
  weightsIH : List (List ℚ)
  biasH : List ℚ
  weightsHO : List (List ℚ)
  biasO : List ℚ
  mutationRate : ℚ
  mutationMagnitude : ℚ
deriving DecidableEq

/-- Xavier-style random matrix: gaussian draw times sqrt(2 / fanIn). -/
def randomMatrix (env : Env) (site rows cols fanIn : ℕ) : List (List ℚ) :=
  (List.range rows).map (fun i => (List.range cols).map (fun j =>
    env.gauss site (i * cols + j) * env.sqrtF (2 / (fanIn : ℚ))))

/-- The constructor of the 12-10-4 network: random weights, zero biases,
mutationRate 0.15, mutationMagnitude 0.3. -/
def freshNN1 (env : Env) (site nIn nHid nOut : ℕ) : NN1 :=
  { inputSize := nIn, hiddenSize := nHid, outputSize := nOut
    weightsIH := randomMatrix env site nHid nIn nIn
    biasH := List.replicate nHid 0
    weightsHO := randomMatrix env (site + 1) nOut nHid nHid
    biasO := List.replicate nOut 0
    mutationRate := 0.15, mutationMagnitude := 0.3 }

/-- forward of the 12-input variant.  On a length mismatch it returns
outputSize copies of 0.5 without touching the input array; otherwise it first
overwrites every non-finite input entry with 0 in place (the returned first
list component is the final state of the caller-owned input array), then runs
tanh hidden and sigmoid output layers.  All weight reads go through the JS
guard w || 0.  The network object itself is returned unchanged: the source
method never assigns to this. -/
def layersV1 (env : Env) (net : NN1) (inputs2 : List JSNum) : List ℚ :=
  let xs := inputs2.map (fun v => v.getD 0)
  let hidden := (List.range net.hiddenSize).map (fun i =>
    env.tanhF (((List.range net.inputSize).map (fun j =>
      orZero ((net.weightsIH.getD i []).getD j 0) * xs.getD j 0)).foldl (· + ·)
      (orZero (net.biasH.getD i 0))))
  (List.range net.outputSize).map (fun i =>
    env.sigmoidF (((List.range net.hiddenSize).map (fun j =>
      orZero ((net.weightsHO.getD i []).getD j 0) * hidden.getD j 0)).foldl (· + ·)
      (orZero (net.biasO.getD i 0))))

def forwardV1 (env : Env) (net : NN1) (inputs : List JSNum) :
    NN1 × List JSNum × List ℚ :=
  if inputs.length ≠ net.inputSize then
    (net, inputs, List.replicate net.outputSize (1/2))
  else
    (net, inputs.map sanitizeIn, layersV1 env net (inputs.map sanitizeIn))

/-- Flattening order of getWeights: per hidden row the input weights then the
hidden bias, then per output row the hidden weights then the output bias. -/
def getWeights (net : NN1) : List ℚ :=
  (((List.range net.hiddenSize).map (fun i =>
      (List.range net.inputSize).map (fun j => (net.weightsIH.getD i []).getD j 0)
      ++ [net.biasH.getD i 0])).flatten)
  ++ (((List.range net.outputSize).map (fun i =>
      (List.range net.hiddenSize).map (fun j => (net.weightsHO.getD i []).getD j 0)
      ++ [net.biasO.getD i 0])).flatten)

/-- Total number of scalars in the flattened weight vector. -/
def totalW (net : NN1) : ℕ :=
  net.hiddenSize * (net.inputSize + 1) + net.outputSize * (net.hiddenSize + 1)

/-- setWeights: writes the flat vector back following the same order, with the
JS guard weights[idx++] || 0 modelled by a default of 0 past the end; an empty
or missing vector leaves the network untouched. -/
def setWeights (net : NN1) (ws : List ℚ) : NN1 :=
  if ws.length = 0 then net else
  { net with
    weightsIH := (List.range net.hiddenSize).map (fun i =>
      (List.range net.inputSize).map (fun j => orZero (ws.getD (i * (net.inputSize + 1) + j) 0)))
    biasH := (List.range net.hiddenSize).map (fun i =>
      orZero (ws.getD (i * (net.inputSize + 1) + net.inputSize) 0))
    weightsHO := (List.range net.outputSize).map (fun i =>
      (List.range net.hiddenSize).map (fun j =>
        orZero (ws.getD (net.hiddenSize * (net.inputSize + 1) + (i * (net.hiddenSize + 1) + j)) 0)))
    biasO := (List.range net.outputSize).map (fun i =>
      orZero (ws.getD (net.hiddenSize * (net.inputSize + 1) + (i * (net.hiddenSize + 1) + net.hiddenSize)) 0)) }

/-- clone: a fresh random network of the same dimensions, overwritten with the
flattened weights, adaptive parameters copied. -/
def clone1 (env : Env) (site : ℕ) (net : NN1) : NN1 :=
  let nn := setWeights (freshNN1 env site net.inputSize net.hiddenSize net.outputSize)
    (getWeights net)
  { nn with mutationRate := net.mutationRate, mutationMagnitude := net.mutationMagnitude }

/-- Blend crossover of the adaptive variant: an independent alpha per flat
position, child value alpha * self + (1 - alpha) * partner, adaptive
parameters averaged. -/
def crossover1 (env : Env) (site : ℕ) (net partner : NN1) : NN1 :=
  let child0 := freshNN1 env (site + 2) net.inputSize net.hiddenSize net.outputSize
  let w1 := getWeights net
  let w2 := getWeights partner
  let cw := (List.range w1.length).map (fun i =>
    env.rand site i * w1.getD i 0 + (1 - env.rand site i) * w2.getD i 0)
  let child := setWeights child0 cw
  { child with
    mutationRate := (net.mutationRate + partner.mutationRate) / 2
    mutationMagnitude := (net.mutationMagnitude + partner.mutationMagnitude) / 2 }

/-- mutate of the adaptive variant: with probability 0.1 each, the magnitude
and then the rate receive gaussian noise and are clamped (magnitude to
[0.05, 0.8], rate to [0.05, 0.4]); then every weight and bias independently
receives gaussian noise scaled by the (new) magnitude with the (new) rate as
trigger probability. -/
def mutate1 (env : Env) (site : ℕ) (net : NN1) : NN1 :=
  let mm := if env.rand site 0 < 0.1
    then max 0.05 (min 0.8 (net.mutationMagnitude + env.gauss site 0 * 0.05))
    else net.mutationMagnitude
  let mr := if env.rand site 1 < 0.1
    then max 0.05 (min 0.4 (net.mutationRate + env.gauss site 1 * 0.03))
    else net.mutationRate
  let nIn := net.inputSize
  let nHid := net.hiddenSize
  let wsite := site + 1
  { net with
    mutationRate := mr
    mutationMagnitude := mm
    weightsIH := (List.range net.hiddenSize).map (fun i =>
      (List.range nIn).map (fun j =>
        let w := (net.weightsIH.getD i []).getD j 0
        if env.rand wsite (i * (nIn + 1) + j) < mr
        then w + env.gauss wsite (i * (nIn + 1) + j) * mm else w))
    biasH := (List.range net.hiddenSize).map (fun i =>
      let w := net.biasH.getD i 0
      if env.rand wsite (i * (nIn + 1) + nIn) < mr
      then w + env.gauss wsite (i * (nIn + 1) + nIn) * mm else w)
    weightsHO := (List.range net.outputSize).map (fun i =>
      (List.range nHid).map (fun j =>
        let w := (net.weightsHO.getD i []).getD j 0
        if env.rand wsite (net.hiddenSize * (nIn + 1) + i * (nHid + 1) + j) < mr
        then w + env.gauss wsite (net.hiddenSize * (nIn + 1) + i * (nHid + 1) + j) * mm else w))
    biasO := (List.range net.outputSize).map (fun i =>
      let w := net.biasO.getD i 0
      if env.rand wsite (net.hiddenSize * (nIn + 1) + i * (nHid + 1) + nHid) < mr
      then w + env.gauss wsite (net.hiddenSize * (nIn + 1) + i * (nHid + 1) + nHid) * mm else w) }

/-! ## Neural network, 8-12-2 variant (src/neural.js lines 191-350) -/

structure NN2 where
  inputSize : ℕ
  hiddenSize : ℕ
  outputSize : ℕ
  weightsIH : List (List ℚ)
  biasH : List ℚ
  weightsHO : List (List ℚ)
  biasO : List ℚ
deriving DecidableEq

def freshNN2 (env : Env) (site nIn nHid nOut : ℕ) : NN2 :=
  { inputSize := nIn, hiddenSize := nHid, outputSize := nOut
    weightsIH := randomMatrix env site nHid nIn nIn
    biasH := List.replicate nHid 0
    weightsHO := randomMatrix env (site + 1) nOut nHid nHid
    biasO := List.replicate nOut 0 }

/-- An element read this.biasX[i]: none when the index is out of range. -/
def entry (l : List ℚ) (i : ℕ) : JSNum := l.get? i

/-- A matrix read this.weightsXY[i][j]. -/
def entry2 (m : List (List ℚ)) (i j : ℕ) : JSNum := (m.get? i).bind (fun r => r.get? j)

/-- forward of the 8-12-2 variant: on a length mismatch it logs and returns the
literal two-element array [0.5, 0.5] whatever outputSize is; on a match it runs
the layers with NO sanitisation of non-finite inputs, so none propagates
through the sums and activations exactly as NaN does in JS. -/
def forwardV2 (env : Env) (net : NN2) (inputs : List JSNum) : List JSNum :=
  if inputs.length ≠ net.inputSize then [some (1/2), some (1/2)]
  else
    let hidden := (List.range net.hiddenSize).map (fun i =>
      Option.map env.tanhF (((List.range net.inputSize).map (fun j =>
        jmul (entry2 net.weightsIH i j) (inputs.getD j none))).foldl jadd
        (entry net.biasH i)))
    (List.range net.outputSize).map (fun i =>
      Option.map env.sigmoid2F (((List.range net.hiddenSize).map (fun j =>
        jmul (entry2 net.weightsHO i j) (hidden.getD j none))).foldl jadd
        (entry net.biasO i)))

/-- copyMatrix: a value-preserving copy (JS spread of each row). -/
def copyMatrix (m : List (List ℚ)) : List (List ℚ) := m.map (fun row => row.map (fun x => x))

/-- clone of the 8-12-2 variant: a fresh network whose four weight fields are
overwritten with copies of the originals (the discarded random initial values
of the fresh network are not modelled). -/
def clone2 (net : NN2) : NN2 :=
  { inputSize := net.inputSize, hiddenSize := net.hiddenSize, outputSize := net.outputSize
    weightsIH := copyMatrix net.weightsIH
    biasH := net.biasH.map (fun x => x)
    weightsHO := copyMatrix net.weightsHO
    biasO := net.biasO.map (fun x => x) }

/-- Uniform coin-flip crossover of the 8-12-2 variant: every position of the
child is taken from self or partner with probability one half each. -/
def crossover2 (env : Env) (site : ℕ) (net partner : NN2) : NN2 :=
  let nIn := net.inputSize
  let nHid := net.hiddenSize
  let offB := nHid * nIn
  let offHO := offB + nHid
  let offBO := offHO + net.outputSize * nHid
  { inputSize := net.inputSize, hiddenSize := net.hiddenSize, outputSize := net.outputSize
    weightsIH := (List.range nHid).map (fun i => (List.range nIn).map (fun j =>
      if env.rand site (i * nIn + j) < 0.5
      then (net.weightsIH.getD i []).getD j 0
      else (partner.weightsIH.getD i []).getD j 0))
    biasH := (List.range nHid).map (fun i =>
      if env.rand site (offB + i) < 0.5 then net.biasH.getD i 0 else partner.biasH.getD i 0)
    weightsHO := (List.range net.outputSize).map (fun i => (List.range nHid).map (fun j =>
      if env.rand site (offHO + i * nHid + j) < 0.5
      then (net.weightsHO.getD i []).getD j 0
      else (partner.weightsHO.getD i []).getD j 0))
    biasO := (List.range net.outputSize).map (fun i =>
      if env.rand site (offBO + i) < 0.5 then net.biasO.getD i 0 else partner.biasO.getD i 0) }

/-- mutateValue of the 8-12-2 variant: with the given probability add a
gaussian scaled by the fixed 0.5. -/
def mutateValue2 (env : Env) (site k : ℕ) (rate v : ℚ) : ℚ :=
  if env.rand site k < rate then v + env.gauss site k * 0.5 else v

/-- mutate(mutationRate) of the 8-12-2 variant, applied to every weight and
bias. -/
def mutate2 (env : Env) (site : ℕ) (rate : ℚ) (net : NN2) : NN2 :=
  let nIn := net.inputSize
  let nHid := net.hiddenSize
  let offB := nHid * nIn
  let offHO := offB + nHid
  let offBO := offHO + net.outputSize * nHid
  { net with
    weightsIH := (List.range nHid).map (fun i => (List.range nIn).map (fun j =>
      mutateValue2 env site (i * nIn + j) rate ((net.weightsIH.getD i []).getD j 0)))
    biasH := (List.range nHid).map (fun i =>
      mutateValue2 env site (offB + i) rate (net.biasH.getD i 0))
    weightsHO := (List.range net.outputSize).map (fun i => (List.range nHid).map (fun j =>
      mutateValue2 env site (offHO + i * nHid + j) rate ((net.weightsHO.getD i []).getD j 0)))
    biasO := (List.range net.outputSize).map (fun i =>
      mutateValue2 env site (offBO + i) rate (net.biasO.getD i 0)) }

/-! ## Food particles (src/creature.js lines 443-457, src/unnamed/part_000 lines 255-271) -/

structure Food where
  x : ℚ
  y : ℚ
  radius : ℚ
deriving DecidableEq

/-- Food of the morphology variant has radius 5. -/
def mkFoodM (x y : ℚ) : Food := ⟨x, y, 5⟩

/-- Food of the simple variant has radius 6. -/
def mkFoodS (x y : ℚ) : Food := ⟨x, y, 6⟩

/-! ## Morphology creature (src/creature.js lines 3-440) -/

structure Genome where
  bodySize : ℚ
  appendages : ℕ
  appendageLength : ℚ
  bodyShape : ℚ
  burstiness : ℚ
  hue : ℚ
  patternType : ℕ
  mutationRate : ℚ
  brainWeights : Option (List ℚ)
deriving DecidableEq

structure CreatureM where
  pos : ℚ × ℚ
  vel : ℚ × ℚ
  angle : ℚ
  genome : Genome
  radius : ℚ
  maxSpeed : ℚ
  energy : ℚ
  maxEnergy : ℚ
  baseDrain : ℚ
  matingCooldown : ℕ
  foodEaten : ℕ
  creaturesEaten : ℕ
  offspring : ℕ
  age : ℕ
  alive : Bool
  burstCooldown : ℕ
  isBursting : Bool
  brain : NN1
deriving DecidableEq

/-- randomGenome: bodySize from random(8, 30), 0 to 6 appendages, and so on;
random(a, b) is a + rand * (b - a). -/
def randomGenome (env : Env) (site : ℕ) : Genome :=
  { bodySize := 8 + env.rand site 0 * 22
    appendages := (⌊env.rand site 1 * 7⌋ : ℤ).toNat
    appendageLength := 0.3 + env.rand site 2 * 0.9
    bodyShape := env.rand site 3
    burstiness := env.rand site 4
    hue := env.rand site 5 * 360
    patternType := (⌊env.rand site 6 * 3⌋ : ℤ).toNat
    mutationRate := 0.15
    brainWeights := none }

/-- cloneGenome: a field-by-field copy, with the brain weight vector spread
into a new array when present. -/
def cloneGenome (g : Genome) : Genome :=
  { g with brainWeights := g.brainWeights.map (fun l => l.map (fun x => x)) }

/-- The mutate helper of mutateGenome: with probability mutationRate, add
gaussian noise scaled by (max - min) * strength and constrain to [min, max]. -/
def mutateScalar (env : Env) (site k : ℕ) (gRate lo hi strength v : ℚ) : ℚ :=
  if env.rand site k < gRate then max lo (min hi (v + env.gauss site k * ((hi - lo) * strength)))
  else v

def mutateGenome (env : Env) (site : ℕ) (g : Genome) : Genome :=
  { bodySize := mutateScalar env site 0 g.mutationRate 5 45 0.15 g.bodySize
    appendages := if env.rand site 1 < g.mutationRate * 0.5
      then (max 0 (min 6 ((g.appendages : ℤ) + (if env.rand site 2 < 0.5 then -1 else 1)))).toNat
      else g.appendages
    appendageLength := mutateScalar env site 3 g.mutationRate 0.2 1.5 0.1 g.appendageLength
    bodyShape := mutateScalar env site 4 g.mutationRate 0 1 0.1 g.bodyShape
    burstiness := mutateScalar env site 5 g.mutationRate 0 1 0.1 g.burstiness
    hue := jsMod (g.hue + env.gauss site 6 * 15 + 360) 360
    patternType := if env.rand site 7 < g.mutationRate * 0.3
      then (⌊env.rand site 8 * 3⌋ : ℤ).toNat else g.patternType
    mutationRate := mutateScalar env site 9 g.mutationRate 0.05 0.3 0.05 g.mutationRate
    brainWeights := none }

def blendGenomes (env : Env) (site : ℕ) (g1 g2 : Genome) : Genome :=
  { bodySize := lerpQ g1.bodySize g2.bodySize (env.rand site 0)
    appendages := if env.rand site 1 < 0.5 then g1.appendages else g2.appendages
    appendageLength := lerpQ g1.appendageLength g2.appendageLength (env.rand site 2)
    bodyShape := lerpQ g1.bodyShape g2.bodyShape (env.rand site 3)
    burstiness := lerpQ g1.burstiness g2.burstiness (env.rand site 4)
    hue := lerpQ g1.hue g2.hue (env.rand site 5)
    patternType := if env.rand site 6 < 0.5 then g1.patternType else g2.patternType
    mutationRate := lerpQ g1.mutationRate g2.mutationRate (env.rand site 7)
    brainWeights := none }

/-- The Creature constructor of the morphology variant: derived traits from the
genome (radius, maxSpeed through p5 map, energy, maxEnergy, baseDrain), a fresh
12-10-4 brain overwritten from genome.brainWeights when those are present. -/
def mkCreatureM (env : Env) (site : ℕ) (x y : ℚ) (g : Option Genome) : CreatureM :=
  let genome := match g with
    | some gg => cloneGenome gg
    | none => randomGenome env site
  let maxSpeed0 := 5 + (1.5 - 5) * ((genome.bodySize - 5) / (40 - 5))
  let brain0 := freshNN1 env (site + 100) 12 10 4
  { pos := (x, y)
    vel := (env.rand site 7 * 2 - 1, env.rand site 8 * 2 - 1)
    angle := env.rand site 9 * (2 * env.piQ)
    genome := genome
    radius := genome.bodySize
    maxSpeed := maxSpeed0 * (1 + (genome.appendages : ℚ) * 0.15)
    energy := 50 + genome.bodySize
    maxEnergy := 80 + genome.bodySize * 2
    baseDrain := 0.03 + genome.bodySize / 500 + (genome.appendages : ℚ) * 0.015
    matingCooldown := 0
    foodEaten := 0, creaturesEaten := 0, offspring := 0, age := 0
    alive := true
    burstCooldown := 0, isBursting := false
    brain := match genome.brainWeights with
      | some ws => setWeights brain0 ws
      | none => brain0 }

/-- A placeholder for out-of-range list reads; every index the passes below
produce is in range, so this value is never actually selected. -/
def cdefaultM : CreatureM :=
  { pos := (0, 0), vel := (0, 0), angle := 0
    genome := { bodySize := 0, appendages := 0, appendageLength := 0, bodyShape := 0
                burstiness := 0, hue := 0, patternType := 0, mutationRate := 0
                brainWeights := none }
    radius := 0, maxSpeed := 1, energy := 0, maxEnergy := 0, baseDrain := 0
    matingCooldown := 0, foodEaten := 0, creaturesEaten := 0, offspring := 0, age := 0
    alive := false, burstCooldown := 0, isBursting := false
    brain := { inputSize := 0, hiddenSize := 0, outputSize := 0, weightsIH := [], biasH := []
               weightsHO := [], biasO := [], mutationRate := 0, mutationMagnitude := 0 } }

instance : Inhabited CreatureM := ⟨cdefaultM⟩

/-- angleToPoint, abstracted through the Env (atan2 plus wrapping). -/
def angleToPointM (env : Env) (c : CreatureM) (px py : ℚ) : ℚ :=
  env.bearingF c.pos c.angle (px, py)

/-- canEat: this.radius >= other.radius * 1.4. -/
def canEatM (c o : CreatureM) : Bool := decide (o.radius * 1.4 ≤ c.radius)

/-- The nearest-food scan of getSensorInputs: tracks the minimal distance
(initially the 200 sense radius) and the bearing to that item. -/
def nearestFoodScan (env : Env) (c : CreatureM) (food : List Food) : ℚ × ℚ :=
  food.foldl (fun acc f =>
    let d := env.sqrtF ((c.pos.1 - f.x) ^ 2 + (c.pos.2 - f.y) ^ 2)
    if d < acc.1 then (d, angleToPointM env c f.x f.y) else acc) (200, 0)

/-- The prey/threat scan: for every other living creature, update the nearest
smaller (prey) and nearest larger (threat) trackers. -/
def preyThreatScan (env : Env) (cs : List CreatureM) (i : ℕ) (c : CreatureM) :
    (ℚ × ℚ) × (ℚ × ℚ) :=
  (List.range cs.length).foldl (fun acc j =>
    if j = i then acc else
    let o := cs.getD j cdefaultM
    if ¬ o.alive then acc else
    let d := env.sqrtF ((c.pos.1 - o.pos.1) ^ 2 + (c.pos.2 - o.pos.2) ^ 2)
    let acc1 := if canEatM c o ∧ d < acc.1.1
      then ((d, angleToPointM env c o.pos.1 o.pos.2), acc.2) else acc
    if canEatM o c ∧ d < acc1.2.1
      then (acc1.1, (d, angleToPointM env c o.pos.1 o.pos.2)) else acc1)
    ((200, 0), (200, 0))

/-- The 12 sensor inputs, in source order. -/
def getSensorInputsM (env : Env) (food : List Food) (cs : List CreatureM) (i : ℕ)
    (w h : ℚ) (c : CreatureM) : List ℚ :=
  let nf := nearestFoodScan env c food
  let pt := preyThreatScan env cs i c
  [ 1 - nf.1 / 200, nf.2 / env.piQ,
    c.pos.2 / h, (h - c.pos.2) / h, c.pos.1 / w, (w - c.pos.1) / w,
    c.energy / c.maxEnergy,
    env.sqrtF (c.vel.1 ^ 2 + c.vel.2 ^ 2) / c.maxSpeed,
    1 - pt.1.1 / 200, pt.1.2 / env.piQ,
    1 - pt.2.1 / 200, pt.2.2 / env.piQ ]

/-- think of the morphology variant: sensor read, forward, turn, speed, burst
gate, then either passive drift (zero appendages) or a lerp toward the target
velocity.  The creature at index i of cs is the thinker itself, skipped by the
identity test of the source. -/
def thinkM (env : Env) (food : List Food) (cs : List CreatureM) (i : ℕ) (w h : ℚ)
    (c : CreatureM) : CreatureM :=
  if ¬ c.alive then c else
  let inputs := getSensorInputsM env food cs i w h c
  let outs := (forwardV1 env c.brain (inputs.map some)).2.2
  let turnRate := (outs.getD 0 0 - 0.5) * 0.2
  let ang := c.angle + turnRate
  let tSpeed0 := outs.getD 1 0 * c.maxSpeed
  let burstNow := 0.5 < c.genome.burstiness ∧ 0.7 < outs.getD 2 0 ∧ c.burstCooldown = 0
  let tSpeed := if burstNow then tSpeed0 * 2.5 else tSpeed0
  let bursting := if burstNow then true else c.isBursting
  let bCooldown := if burstNow then 60 else c.burstCooldown
  let vel :=
    if c.genome.appendages = 0 then
      let r := env.rand2D i
      (c.vel.1 * 0.98 + r.1 * 0.1, c.vel.2 * 0.98 + r.2 * 0.1)
    else
      let tv := (env.cosF ang * tSpeed, env.sinF ang * tSpeed)
      (c.vel.1 + (tv.1 - c.vel.1) * 0.1, c.vel.2 + (tv.2 - c.vel.2) * 0.1)
  { c with angle := ang, vel := vel, isBursting := bursting, burstCooldown := bCooldown }

/-- The movement-scaled energy drain common to both variants:
base * (1 + mag(vel) / maxSpeed). -/
def speedDrain (env : Env) (base maxSpeed : ℚ) (vel : ℚ × ℚ) : ℚ :=
  base * (1 + env.sqrtF (vel.1 ^ 2 + vel.2 ^ 2) / maxSpeed)

/-- The move-and-bounce block of the morphology update: position plus
velocity, then each wall check clamps the position and damps the offending
velocity component by -0.5 (the heading is untouched in this variant).
Returns the new position and velocity. -/
def bounceM (w h : ℚ) (c : CreatureM) : (ℚ × ℚ) × (ℚ × ℚ) :=
  let px := c.pos.1 + c.vel.1
  let py := c.pos.2 + c.vel.2
  let pv := if px < c.radius then (c.radius, c.vel.1 * (-0.5)) else (px, c.vel.1)
  let pv := if w - c.radius < pv.1 then (w - c.radius, pv.2 * (-0.5)) else pv
  let qv := if py < c.radius then (c.radius, c.vel.2 * (-0.5)) else (py, c.vel.2)
  let qv := if h - c.radius < qv.1 then (h - c.radius, qv.2 * (-0.5)) else qv
  ((pv.1, qv.1), (pv.2, qv.2))

/-- update of the morphology variant: move, bounce off the four walls with the
0.5 damping, drain energy scaled by speed and burst, tick the cooldowns, age,
and die when energy reaches zero or below. -/
def updateM (env : Env) (w h : ℚ) (c : CreatureM) : CreatureM :=
  if ¬ c.alive then c else
  let b := bounceM w h c
  let drain0 := speedDrain env c.baseDrain c.maxSpeed b.2
  let drain := if c.isBursting then drain0 * 3 else drain0
  let e := c.energy - drain
  let bc := c.burstCooldown - 1
  { c with
    pos := b.1, vel := b.2
    energy := e
    burstCooldown := bc
    isBursting := if bc = 0 then false else c.isBursting
    matingCooldown := c.matingCooldown - 1
    age := c.age + 1
    alive := decide (0 < e) }

/-- The eat scan: the source iterates the food array from its last index down
and consumes the first overlapping item it meets, so the hit with the highest
index wins. -/
def eatIdx (env : Env) (pos : ℚ × ℚ) (radius : ℚ) (food : List Food) : Option ℕ :=
  ((List.range food.length).reverse).find? (fun i =>
    let f := food.getD i ⟨0, 0, 0⟩
    decide (env.sqrtF ((pos.1 - f.x) ^ 2 + (pos.2 - f.y) ^ 2) < radius + f.radius))

/-- eat of the morphology variant: gain 25 energy capped at maxEnergy,
increment foodEaten, splice the item out. -/
def eatM (env : Env) (c : CreatureM) (food : List Food) : CreatureM × List Food :=
  if ¬ c.alive then (c, food) else
  match eatIdx env c.pos c.radius food with
  | some i => ({ c with
      energy := min (c.energy + 25) c.maxEnergy,
      foodEaten := c.foodEaten + 1 }, food.eraseIdx i)
  | none => (c, food)

/-- canMate: alive, energy above 0.7 of maxEnergy, cooldown expired. -/
def canMateM (c : CreatureM) : Bool :=
  c.alive && decide (c.maxEnergy * 0.7 < c.energy) && decide (c.matingCooldown = 0)

/-- mateWith: both parents pay the fixed cost 30, both cooldowns reset to 200,
both offspring counters increment; the child genome is a blend then a
mutation, the child brain a crossover then a mutation, and the child spawns
at the jittered midpoint with starting energy 60.  Returns (self, partner,
child) after the event. -/
def mateWithM (env : Env) (site : ℕ) (c partner : CreatureM) : CreatureM × CreatureM × CreatureM :=
  let c1 := { c with energy := c.energy - 30, matingCooldown := 200, offspring := c.offspring + 1 }
  let p1 := { partner with
      energy := partner.energy - 30, matingCooldown := 200,
      offspring := partner.offspring + 1 }
  let childGenome0 := blendGenomes env (Nat.pair site 0) c.genome partner.genome
  let childGenome1 := mutateGenome env (Nat.pair site 1) childGenome0
  let childBrain0 := crossover1 env (Nat.pair site 2) c.brain partner.brain
  let childBrain1 := mutate1 env (Nat.pair site 3) childBrain0
  let childGenome2 := { childGenome1 with brainWeights := some (getWeights childBrain1) }
  let childX := (c.pos.1 + partner.pos.1) / 2 + (env.rand (Nat.pair site 4) 0 * 40 - 20)
  let childY := (c.pos.2 + partner.pos.2) / 2 + (env.rand (Nat.pair site 4) 1 * 40 - 20)
  let child0 := mkCreatureM env (Nat.pair site 5) childX childY (some childGenome2)
  let child1 := { child0 with brain := match childGenome2.brainWeights with
      | some ws => setWeights child0.brain ws
      | none => child0.brain }
  (c1, p1, { child1 with energy := 60 })

/-- The partner search of tryMate over the current creature list: the first
index (in array order) that is not self, alive, can mate, is within 10 of the
own radius, and is in contact range. -/
def tryMateIdx (env : Env) (cs : List CreatureM) (i : ℕ) : Option ℕ :=
  if ¬ canMateM (cs.getD i cdefaultM) then none else
  (List.range cs.length).find? (fun j =>
    let c := cs.getD i cdefaultM
    let o := cs.getD j cdefaultM
    decide (j ≠ i) && o.alive && canMateM o && decide (|c.radius - o.radius| ≤ 10) &&
    decide (env.sqrtF ((c.pos.1 - o.pos.1) ^ 2 + (c.pos.2 - o.pos.2) ^ 2)
      < c.radius + o.radius + 10))

/-! ## The real-time mating pass (src/sketch.js lines 135-151,
src/unnamed/part_002 lines 130-145) -/

structure MState where
  cs : List CreatureM
  newborns : List CreatureM
  mated : List ℕ
  events : List (ℕ × ℕ)
deriving DecidableEq

/-- One iteration of the mating loop at creature index k: skip unless alive,
able to mate and not yet recorded in matedThisFrame; otherwise search for a
partner; on success apply mateWith to both parties in place, queue the child
and record the initiator. -/
def matingStep (env : Env) (s : MState) (k : ℕ) : MState :=
  let c := s.cs.getD k cdefaultM
  if c.alive && canMateM c && decide (k ∉ s.mated) then
    match tryMateIdx env s.cs k with
    | some j =>
      let r := mateWithM env k c (s.cs.getD j cdefaultM)
      { cs := (s.cs.set k r.1).set j r.2.1
        newborns := s.newborns ++ [r.2.2]
        mated := s.mated ++ [k]
        events := s.events ++ [(k, j)] }
    | none => s
  else s

/-- The whole mating pass over the population as it stands when the pass
begins; newborns are collected on the side and appended only afterwards,
exactly as in the source. -/
def matingPass (env : Env) (cs : List CreatureM) : MState :=
  (List.range cs.length).foldl (matingStep env) ⟨cs, [], [], []⟩

/-! ## The per-creature think/update/eat loop (src/sketch.js lines 128-133,
src/unnamed/part_002 lines 114-120) -/

structure DState where
  cs : List CreatureM
  food : List Food
  recs : List (List Food × List CreatureM)
deriving DecidableEq

/-- One iteration of the interleaved loop at creature index k.  The recs
component records, for each creature in order, the food list and the creature
list its think call actually observes. -/
def decideStep (env : Env) (w h : ℚ) (s : DState) (k : ℕ) : DState :=
  let c1 := thinkM env s.food s.cs k w h (s.cs.getD k cdefaultM)
  let c2 := updateM env w h c1
  let r := eatM env c2 s.food
  { cs := s.cs.set k r.1, food := r.2, recs := s.recs ++ [(s.food, s.cs)] }

def decidePhase (env : Env) (w h : ℚ) (cs : List CreatureM) (food : List Food) : DState :=
  (List.range cs.length).foldl (decideStep env w h) ⟨cs, food, []⟩

/-! ## Simple creature (src/unnamed/part_000 lines 3-252) -/

structure CreatureS where
  pos : ℚ × ℚ
  vel : ℚ × ℚ
  angle : ℚ
  radius : ℚ
  maxSpeed : ℚ
  maxForce : ℚ
  energy : ℚ
  maxEnergy : ℚ
  energyDrain : ℚ
  energyFromFood : ℚ
  reproductionThreshold : ℚ
  reproductionCost : ℚ
  foodEaten : ℕ
  age : ℕ
  fitness : ℚ
  brain : NN2
  hue : ℚ
  alive : Bool
deriving DecidableEq

/-- The Creature constructor of the simple variant: fixed physical constants,
energy 100 of 150, and a brain that is either a clone of the given one or a
fresh 8-12-2 network. -/
def mkCreatureS (env : Env) (site : ℕ) (x y : ℚ) (b : Option NN2) : CreatureS :=
  { pos := (x, y), vel := (0, 0)
    angle := env.rand site 0 * (2 * env.piQ)
    radius := 10, maxSpeed := 4, maxForce := 0.3
    energy := 100, maxEnergy := 150, energyDrain := 0.15, energyFromFood := 40
    reproductionThreshold := 120, reproductionCost := 60
    foodEaten := 0, age := 0, fitness := 0
    brain := match b with
      | some bb => clone2 bb
      | none => freshNN2 env (site + 100) 8 12 2
    hue := env.rand site 1 * 360
    alive := true }

def cdefaultS : CreatureS :=
  { pos := (0, 0), vel := (0, 0), angle := 0
    radius := 10, maxSpeed := 4, maxForce := 0.3
    energy := 0, maxEnergy := 150, energyDrain := 0.15, energyFromFood := 40
    reproductionThreshold := 120, reproductionCost := 60
    foodEaten := 0, age := 0, fitness := 0
    brain := { inputSize := 8, hiddenSize := 12, outputSize := 2
               weightsIH := List.replicate 12 (List.replicate 8 0)
               biasH := List.replicate 12 0
               weightsHO := List.replicate 2 (List.replicate 12 0)
               biasO := List.replicate 2 0 }
    hue := 0, alive := false }

instance : Inhabited CreatureS := ⟨cdefaultS⟩

/-- calculateFitness: fitness = foodEaten * 100 + age * 0.1, frozen into the
fitness field. -/
def calculateFitnessS (c : CreatureS) : CreatureS :=
  { c with fitness := (c.foodEaten : ℚ) * 100 + (c.age : ℚ) * 0.1 }

/-- The move-and-bounce block of the simple update: as in the morphology
variant, but the heading is additionally reflected (pi minus angle on a
horizontal bounce, negated on a vertical one).  Returns position, velocity
and heading. -/
def bounceS (env : Env) (w h : ℚ) (c : CreatureS) : (ℚ × ℚ) × (ℚ × ℚ) × ℚ :=
  let px := c.pos.1 + c.vel.1
  let py := c.pos.2 + c.vel.2
  let pva := if px < c.radius then (c.radius, c.vel.1 * (-0.5), env.piQ - c.angle)
    else (px, c.vel.1, c.angle)
  let pva := if w - c.radius < pva.1 then (w - c.radius, pva.2.1 * (-0.5), env.piQ - pva.2.2)
    else pva
  let qva := if py < c.radius then (c.radius, c.vel.2 * (-0.5), -pva.2.2)
    else (py, c.vel.2, pva.2.2)
  let qva := if h - c.radius < qva.1 then (h - c.radius, qva.2.1 * (-0.5), -qva.2.2)
    else qva
  ((pva.1, qva.1), (pva.2.1, qva.2.1), qva.2.2)

/-- update of the simple variant: move, bounce with angle reflection, drain
energy scaled by speed, age, and on death compute the final fitness. -/
def updateS (env : Env) (w h : ℚ) (c : CreatureS) : CreatureS :=
  if ¬ c.alive then c else
  let b := bounceS env w h c
  let e := c.energy - speedDrain env c.energyDrain c.maxSpeed b.2.1
  let c2 := { c with
    pos := b.1, vel := b.2.1, angle := b.2.2
    energy := e, age := c.age + 1 }
  if e ≤ 0 then calculateFitnessS { c2 with alive := false } else c2

/-- eat of the simple variant: gain energyFromFood capped at maxEnergy. -/
def eatS (env : Env) (c : CreatureS) (food : List Food) : CreatureS × List Food × Bool :=
  if ¬ c.alive then (c, food, false) else
  match eatIdx env c.pos c.radius food with
  | some i => ({ c with
      energy := min (c.energy + c.energyFromFood) c.maxEnergy,
      foodEaten := c.foodEaten + 1 }, food.eraseIdx i, true)
  | none => (c, food, false)

/-! ## Generational controller (src/unnamed/part_001 lines 417-497) -/

/-- The elitism constant of the generational sketch. -/
def eliteCount : ℕ := 2

/-- Tournament selection: none on an empty population, otherwise sample
min 3 len random members and keep the strictly fittest seen (the first always
beats the initial minus-infinity best). -/
def tournamentSelect (env : Env) (site : ℕ) (pop : List CreatureS) : Option CreatureS :=
  if pop.length = 0 then none else
  (List.range (min 3 pop.length)).foldl (fun best i =>
    let cand := pop.getD (⌊env.rand site i * (pop.length : ℚ)⌋ : ℤ).toNat cdefaultS
    match best with
    | none => some cand
    | some b => if b.fitness < cand.fitness then some cand else best) none

/-- Creature.crossover of the simple variant: uniform brain crossover, then
mutation at the supplied rate, child at a random position with a blended hue. -/
def crossoverS (env : Env) (site : ℕ) (mRate : ℚ) (w h : ℚ) (p1 p2 : CreatureS) : CreatureS :=
  let childBrain := mutate2 env (Nat.pair site 1) mRate
    (crossover2 env (Nat.pair site 0) p1.brain p2.brain)
  let child := mkCreatureS env (Nat.pair site 2)
    (50 + env.rand (Nat.pair site 3) 0 * (w - 100)) (50 + env.rand (Nat.pair site 3) 1 * (h - 100))
    (some childBrain)
  { child with hue := jsMod ((p1.hue + p2.hue) / 2 + (env.rand (Nat.pair site 3) 2 * 20 - 10) + 360) 360 }

/-- The asexual fallback of nextGeneration: clone and mutate a single parent
brain. -/
def asexualS (env : Env) (site : ℕ) (mRate : ℚ) (w h : ℚ) (p1 : CreatureS) : CreatureS :=
  let childBrain := mutate2 env (Nat.pair site 0) mRate (clone2 p1.brain)
  mkCreatureS env (Nat.pair site 1)
    (50 + env.rand (Nat.pair site 2) 0 * (w - 100)) (50 + env.rand (Nat.pair site 2) 1 * (h - 100))
    (some childBrain)

/-- One filler slot of the while loop of nextGeneration: two tournament picks,
then crossover, or the asexual fallback when only the first succeeds, or a
fresh random creature when none does. -/
def fillOne (env : Env) (k : ℕ) (mRate : ℚ) (w h : ℚ) (sorted : List CreatureS) : CreatureS :=
  match tournamentSelect env (Nat.pair (Nat.pair k 0) 10) sorted,
        tournamentSelect env (Nat.pair (Nat.pair k 1) 10) sorted with
  | some p1, some p2 => crossoverS env (Nat.pair k 2) mRate w h p1 p2
  | some p1, none => asexualS env (Nat.pair k 3) mRate w h p1
  | none, _ => mkCreatureS env (Nat.pair (Nat.pair k 4) 10)
      (50 + env.rand (Nat.pair (Nat.pair k 5) 10) 0 * (w - 100))
      (50 + env.rand (Nat.pair (Nat.pair k 5) 10) 1 * (h - 100)) none

/-- The elite at sorted index i: a fresh Creature handed the elite brain (the
constructor clones it) at a random position, with the elite hue copied. -/
def eliteAt (env : Env) (w h : ℚ) (sorted : List CreatureS) (i : ℕ) : CreatureS :=
  let e := mkCreatureS env (Nat.pair (Nat.pair i 6) 10)
    (50 + env.rand (Nat.pair (Nat.pair i 7) 10) 0 * (w - 100))
    (50 + env.rand (Nat.pair (Nat.pair i 7) 10) 1 * (h - 100))
    (some (sorted.getD i cdefaultS).brain)
  { e with hue := (sorted.getD i cdefaultS).hue }

/-- The scoring and sort at a generation boundary: calculateFitness for every
creature, then the stable sort descending by fitness (the JS comparator
b.fitness - a.fitness under a stable Array.sort). -/
def sortByFitness (cs : List CreatureS) : List CreatureS :=
  (cs.map calculateFitnessS).mergeSort (fun a b => decide (b.fitness ≤ a.fitness))

/-- nextGeneration: score every creature, sort descending by fitness, carry
the top min(eliteCount, n) forward, and fill the remaining
popSize - min(eliteCount, n) slots with the tournament/crossover loop. -/
def nextGen (env : Env) (mRate : ℚ) (w h : ℚ) (popSize : ℕ) (cs : List CreatureS) :
    List CreatureS :=
  (List.range (min eliteCount (sortByFitness cs).length)).map (eliteAt env w h (sortByFitness cs))
  ++ (List.range (popSize - min eliteCount (sortByFitness cs).length)).map
      (fun k => fillOne env k mRate w h (sortByFitness cs))

/-! ## Fitness (src/sketch.js lines 202-207, src/unnamed/part_000 lines 199-202) -/

/-- The per-creature fitness computed by updateStats of the realtime sketch:
pow(foodEaten, 2) * 50 + offspring * 200 + age * 0.05, a pure function of the
lifetime counters. -/
def fitMorph (c : CreatureM) : ℚ :=
  (c.foodEaten : ℚ) ^ 2 * 50 + (c.offspring : ℚ) * 200 + (c.age : ℚ) * 0.05

/-! ## Predicates and iteration helpers used by the statements below -/

/-- The adaptive parameters sit inside their clamp ranges. -/
def InRangeParams (net : NN1) : Prop :=
  0.05 ≤ net.mutationRate ∧ net.mutationRate ≤ 0.4 ∧
  0.05 ≤ net.mutationMagnitude ∧ net.mutationMagnitude ≤ 0.8

/-- n invocations of mutate, each with its own environment (fresh randomness)
and call site. -/
def mutateMany (envs : ℕ → Env) (sites : ℕ → ℕ) : ℕ → NN1 → NN1
  | 0, net => net
  | n + 1, net => mutate1 (envs n) (sites n) (mutateMany envs sites n net)

/-- Math.sqrt returns a nonnegative number on nonnegative input. -/
def EnvSqrtOk (env : Env) : Prop := ∀ x : ℚ, 0 ≤ x → 0 ≤ env.sqrtF x

/-- The multiset of creatures involved in a list of mating events, initiators
and partners interleaved. -/
def participants : List (ℕ × ℕ) → List ℕ
  | [] => []
  | e :: es => e.1 :: e.2 :: participants es

/-- The invariant carried through the mating pass: the population size is
fixed, one newborn per event, no creature occurs in two events, all recorded
indices are in range, and every past participant currently carries a nonzero
mating cooldown (set to 200 by mateWith), which is what locks it out of any
further event this tick. -/
def MInv (n : ℕ) (s : MState) : Prop :=
  s.cs.length = n ∧
  s.newborns.length = s.events.length ∧
  (participants s.events).Nodup ∧
  (∀ p ∈ participants s.events, p < n) ∧
  (∀ p ∈ participants s.events, (s.cs.getD p cdefaultM).matingCooldown ≠ 0)

/-- The invariant carried through the interleaved think/update/eat loop after
k creatures have been processed: the food list only ever shrinks (by splices),
creatures at indices not yet processed still hold their start-of-tick state,
and one observation record exists per processed creature, each showing a
food list that is a sublist of the start-of-tick one and agreeing with the
start-of-tick population from its own index on. -/
def DInv (cs0 : List CreatureM) (food0 : List Food) (k : ℕ) (s : DState) : Prop :=
  s.cs.length = cs0.length ∧
  s.food.Sublist food0 ∧
  (∀ j, k ≤ j → s.cs.getD j cdefaultM = cs0.getD j cdefaultM) ∧
  s.recs.length = k ∧
  (∀ i, i < k →
    (s.recs.getD i ([], [])).1.Sublist food0 ∧
    (∀ j, i ≤ j → (s.recs.getD i ([], [])).2.getD j cdefaultM = cs0.getD j cdefaultM))

/-! ## Concrete instantiation and fixtures for the closed statements -/

/-- A concrete environment for closed statements.  sqrtF is exact on perfect
squares (every radicand reached below is one); the remaining components are
fixed placeholder values: the closed facts stated with env0 are invariant
under the choice (the relevant branches either do not consult these
components or the stated comparison holds for every value), and the
placeholder values agree with the real library functions at the arguments
the evaluated traces actually reach (tanh 0 = 0, sigmoid 0 = 1/2, cos 0 = 1,
sin 0 = 0, a unit vector (1, 0), a Math.random draw of 1/2). -/
def env0 : Env :=
  { sqrtF := sqrtQ
    tanhF := fun _ => 0
    sigmoidF := fun _ => 1/2
    sigmoid2F := fun _ => 1/2
    bearingF := fun _ _ _ => 0
    cosF := fun _ => 1
    sinF := fun _ => 0
    piQ := 3.141592653589793
    rand := fun _ _ => 1/2
    gauss := fun _ _ => 0
    rand2D := fun _ => (1, 0) }

/-- A 12-10-4 network with all weights and biases zero and the constructor
default adaptive parameters. -/
def zeroNN1 : NN1 :=
  { inputSize := 12, hiddenSize := 10, outputSize := 4
    weightsIH := List.replicate 10 (List.replicate 12 0)
    biasH := List.replicate 10 0
    weightsHO := List.replicate 4 (List.replicate 10 0)
    biasO := List.replicate 4 0
    mutationRate := 0.15, mutationMagnitude := 0.3 }

/-- An 8-12-2 network with all weights and biases zero. -/
def zeroNN2 : NN2 :=
  { inputSize := 8, hiddenSize := 12, outputSize := 2
    weightsIH := List.replicate 12 (List.replicate 8 0)
    biasH := List.replicate 12 0
    weightsHO := List.replicate 2 (List.replicate 12 0)
    biasO := List.replicate 2 0 }

/-- An 8-entry sensor vector whose first reading is non-finite. -/
def badIn8 : List JSNum := none :: List.replicate 7 (some 0)

/-- A 12-entry sensor vector whose first reading is non-finite. -/
def badIn12 : List JSNum := none :: List.replicate 11 (some 0)

/-- Tiny 1-1-1 networks for closed instantiations of the crossover laws. -/
def nn1a : NN1 := ⟨1, 1, 1, [[2]], [0], [[4]], [1], 0.15, 0.3⟩

def nn1b : NN1 := ⟨1, 1, 1, [[1]], [0], [[2]], [0], 0.2, 0.4⟩

/-- A live simple-variant creature at rest, away from the walls, with energy
1/10: one tick of the 0.15 base drain sends its energy strictly below zero. -/
def cSlow : CreatureS := { cdefaultS with pos := (300, 300), alive := true, energy := 1/10 }

/-- A live morphology creature over a food item: zero appendages (passive
drifter, so its movement consumes no trigonometry), zero burstiness, a zero
brain. -/
def cA : CreatureM :=
  { cdefaultM with
    alive := true, pos := (100, 100), vel := (0, 0)
    radius := 20, maxSpeed := 3, energy := 50, maxEnergy := 120, baseDrain := 1/10
    genome := { cdefaultM.genome with bodySize := 20, appendages := 0, burstiness := 0 }
    brain := zeroNN1 }

/-- A second creature of the same build, 200 pixels to the right. -/
def cB : CreatureM := { cA with pos := (300, 100) }

/-- A morphology creature eligible to mate: alive, cooldown expired, energy 70
above the 0.7 * 90 = 63 threshold, with the constructor relation
maxEnergy = 80 + 2 * bodySize at bodySize 5. -/
def cMate : CreatureM :=
  { cA with
    energy := 70, maxEnergy := 90, radius := 5,
    genome := { cA.genome with bodySize := 5 } }

/-- A second eligible mate two pixels to the right of cMate: in contact range
(distance 2 below 5 + 5 + 10) and of identical radius. -/
def cMateB : CreatureM := { cMate with pos := (102, 100) }

/-- A copy of the default morphology creature with different physical state
but identical lifetime counters. -/
def cM2 : CreatureM := { cdefaultM with pos := (5, 5), energy := 42 }

/-! ## General helper lemmas -/

theorem orZero_eq (x : ℚ) : orZero x = x := by
  unfold orZero
  split <;> simp_all

theorem sanitizeIn_idem (x : JSNum) : sanitizeIn (sanitizeIn x) = sanitizeIn x := by
  cases x <;> simp [sanitizeIn, jsIsFinite]

theorem sqrtQ_nonneg (q : ℚ) : 0 ≤ sqrtQ q := by
  unfold sqrtQ
  positivity

theorem randRange_env0 : RandRange env0 := by
  intro s k
  constructor <;> norm_num [env0]

theorem envSqrtOk_env0 : EnvSqrtOk env0 := by
  intro x _
  exact sqrtQ_nonneg x

theorem clamp_mem (lo hi x : ℚ) (h : lo ≤ hi) :
    lo ≤ max lo (min hi x) ∧ max lo (min hi x) ≤ hi :=
  ⟨le_max_left _ _, max_le h (min_le_left _ _)⟩

theorem blend_between (a b t : ℚ) (h0 : 0 ≤ t) (h1 : t ≤ 1) :
    min a b ≤ t * a + (1 - t) * b ∧ t * a + (1 - t) * b ≤ max a b := by
  rcases le_total a b with hab | hab
  · rw [min_eq_left hab, max_eq_right hab]
    constructor <;> nlinarith
  · rw [min_eq_right hab, max_eq_left hab]
    constructor <;> nlinarith

theorem lerp_between (a b t : ℚ) (h0 : 0 ≤ t) (h1 : t ≤ 1) :
    min a b ≤ lerpQ a b t ∧ lerpQ a b t ≤ max a b := by
  unfold lerpQ
  rcases le_total a b with hab | hab
  · rw [min_eq_left hab, max_eq_right hab]
    constructor <;> nlinarith
  · rw [min_eq_right hab, max_eq_left hab]
    constructor <;> nlinarith

theorem foldl_inv {α σ : Type _} (P : σ → Prop) (f : σ → α → σ) :
    ∀ (l : List α) (s : σ), (∀ t a, a ∈ l → P t → P (f t a)) → P s → P (l.foldl f s) := by
  intro l
  induction l with
  | nil => intro s _ hs; exact hs
  | cons a l ih =>
    intro s hstep hs
    exact ih (f s a) (fun t b hb ht => hstep t b (List.mem_cons_of_mem a hb) ht)
      (hstep s a (List.mem_cons_self a l) hs)

/-! ## Claim C7: the two fitness formulas -/

/-- Claim C7 (confirmed): the realtime sketch scores a creature as
foodEaten squared times 50 plus offspring times 200 plus age times 0.05
(= 1/20 exactly in the rational model), the simple variant freezes
foodEaten * 100 + age * 0.1 (= 1/10) into the fitness field; both depend on
nothing but the lifetime counters, and calculateFitness touches no other
field and is idempotent. -/
theorem claim_C7 :
    (∀ c : CreatureM, fitMorph c =
      (c.foodEaten : ℚ) ^ 2 * 50 + (c.offspring : ℚ) * 200 + (c.age : ℚ) * (1/20)) ∧
    (∀ c d : CreatureM, c.foodEaten = d.foodEaten → c.offspring = d.offspring →
      c.age = d.age → fitMorph c = fitMorph d) ∧
    (∀ c : CreatureS, (calculateFitnessS c).fitness =
      (c.foodEaten : ℚ) * 100 + (c.age : ℚ) * (1/10)) ∧
    (∀ c d : CreatureS, c.foodEaten = d.foodEaten → c.age = d.age →
      (calculateFitnessS c).fitness = (calculateFitnessS d).fitness) ∧
    (∀ c : CreatureS, (calculateFitnessS c).foodEaten = c.foodEaten ∧
      (calculateFitnessS c).age = c.age ∧ (calculateFitnessS c).energy = c.energy ∧
      (calculateFitnessS c).alive = c.alive ∧
      calculateFitnessS (calculateFitnessS c) = calculateFitnessS c) := by
  refine ⟨?_, ?_, ?_, ?_, ?_⟩
  · intro c; unfold fitMorph; norm_num
  · intro c d h1 h2 h3; unfold fitMorph; rw [h1, h2, h3]
  · intro c; unfold calculateFitnessS; norm_num
  · intro c d h1 h2; unfold calculateFitnessS; simp [h1, h2]
  · intro c; unfold calculateFitnessS; simp

theorem claim_C7_witness :
    cdefaultM.foodEaten = cM2.foodEaten ∧ cdefaultM.offspring = cM2.offspring ∧
    cdefaultM.age = cM2.age ∧ fitMorph cdefaultM = fitMorph cM2 :=
  ⟨rfl, rfl, rfl, claim_C7.2.1 cdefaultM cM2 rfl rfl rfl⟩

/-! ## Claim C4: mutation parameter bounds -/

theorem mutate1_params (env : Env) (site : ℕ) (net : NN1) (h : InRangeParams net) :
    InRangeParams (mutate1 env site net) := by
  obtain ⟨h1, h2, h3, h4⟩ := h
  unfold InRangeParams mutate1
  dsimp only
  refine ⟨?_, ?_, ?_, ?_⟩ <;> split_ifs
  · exact (clamp_mem 0.05 0.4 _ (by norm_num)).1
  · exact h1
  · exact (clamp_mem 0.05 0.4 _ (by norm_num)).2
  · exact h2
  · exact (clamp_mem 0.05 0.8 _ (by norm_num)).1
  · exact h3
  · exact (clamp_mem 0.05 0.8 _ (by norm_num)).2
  · exact h4

/-- Claim C4 (confirmed): starting from in-range adaptive parameters, any
number of mutate() invocations (each with fresh randomness) keeps
mutationRate inside [0.05, 0.4] and mutationMagnitude inside [0.05, 0.8];
clone copies both parameters verbatim, and crossover sets the child
parameters to the parental arithmetic means, which stay in range. -/
theorem claim_C4 (net : NN1) (h : InRangeParams net) :
    (∀ (envs : ℕ → Env) (sites : ℕ → ℕ) (n : ℕ),
      InRangeParams (mutateMany envs sites n net)) ∧
    (∀ (env : Env) (site : ℕ),
      (clone1 env site net).mutationRate = net.mutationRate ∧
      (clone1 env site net).mutationMagnitude = net.mutationMagnitude ∧
      InRangeParams (clone1 env site net)) ∧
    (∀ (env : Env) (site : ℕ) (partner : NN1), InRangeParams partner →
      (crossover1 env site net partner).mutationRate
        = (net.mutationRate + partner.mutationRate) / 2 ∧
      (crossover1 env site net partner).mutationMagnitude
        = (net.mutationMagnitude + partner.mutationMagnitude) / 2 ∧
      InRangeParams (crossover1 env site net partner)) := by
  obtain ⟨h1, h2, h3, h4⟩ := h
  refine ⟨?_, ?_, ?_⟩
  · intro envs sites n
    induction n with
    | zero => exact ⟨h1, h2, h3, h4⟩
    | succ n ih => exact mutate1_params (envs n) (sites n) _ ih
  · intro env site
    refine ⟨rfl, rfl, h1, h2, h3, h4⟩
  · intro env site partner hp
    obtain ⟨p1, p2, p3, p4⟩ := hp
    refine ⟨rfl, rfl, ?_, ?_, ?_, ?_⟩ <;>
      · show _ ≤ _
        dsimp only [crossover1]
        linarith

theorem claim_C4_witness :
    InRangeParams zeroNN1 ∧
    InRangeParams (mutateMany (fun _ => env0) (fun _ => 0) 3 zeroNN1) := by
  have h : InRangeParams zeroNN1 := by
    refine ⟨?_, ?_, ?_, ?_⟩ <;> norm_num [zeroNN1]
  exact ⟨h, (claim_C4 zeroNN1 h).1 (fun _ => env0) (fun _ => 0) 3⟩

/-! ## Claim C1: degraded modes of forward -/

/-- Claim C1 (corrected): the 12-input forward returns outputSize copies of
0.5 on a length mismatch and computes from the sanitised input vector (every
entry finite after the call) on a match; the 8-12-2 forward, however, returns
the literal pair [0.5, 0.5] on a mismatch (outputSize copies only when
outputSize is 2, as in every network that variant constructs) and performs no
sanitisation of non-finite inputs at all. -/
theorem claim_C1_amended :
    (∀ (env : Env) (net : NN1) (inputs : List JSNum), inputs.length ≠ net.inputSize →
      (forwardV1 env net inputs).2.2 = List.replicate net.outputSize (1/2)) ∧
    (∀ (env : Env) (net : NN1) (inputs : List JSNum), inputs.length = net.inputSize →
      (forwardV1 env net inputs).2.2 = (forwardV1 env net (inputs.map sanitizeIn)).2.2 ∧
      (∀ x ∈ (forwardV1 env net inputs).2.1, jsIsFinite x = true)) ∧
    (∀ (env : Env) (net : NN2) (inputs : List JSNum), inputs.length ≠ net.inputSize →
      forwardV2 env net inputs = [some (1/2), some (1/2)]) := by
  have hmaplen : ∀ (inputs : List JSNum) (n : ℕ), inputs.length = n →
      ¬ (inputs.map sanitizeIn).length ≠ n := by
    intro inputs n h
    simp [h]
  refine ⟨?_, ?_, ?_⟩
  · intro env net inputs h
    unfold forwardV1
    rw [if_pos h]
  · intro env net inputs h
    have hm : (inputs.map sanitizeIn).map sanitizeIn = inputs.map sanitizeIn := by
      rw [List.map_map]
      exact List.map_congr_left (fun x _ => sanitizeIn_idem x)
    constructor
    · unfold forwardV1
      rw [if_neg (fun hc => hc h), if_neg (hmaplen inputs net.inputSize h)]
      dsimp only
      rw [hm]
    · intro x hx
      unfold forwardV1 at hx
      rw [if_neg (fun hc => hc h)] at hx
      dsimp only at hx
      obtain ⟨y, _, rfl⟩ := List.mem_map.mp hx
      cases y <;> simp [sanitizeIn, jsIsFinite]
  · intro env net inputs h
    unfold forwardV2
    rw [if_pos h]

/-- Counterexample to claim C1 as stated: the 8-12-2 forward applied to a
correct-length input whose first entry is non-finite does NOT treat that entry
as 0: the non-finite value propagates (even through zero weights, since
0 * NaN = NaN) and the call answers the all-NaN vector, which differs from the
answer on the zeroed input. -/
theorem claim_C1_counterexample :
    badIn8.length = zeroNN2.inputSize ∧
    forwardV2 env0 zeroNN2 badIn8 = [none, none] ∧
    forwardV2 env0 zeroNN2 (badIn8.map sanitizeIn) = [some (1/2), some (1/2)] ∧
    forwardV2 env0 zeroNN2 badIn8 ≠ forwardV2 env0 zeroNN2 (badIn8.map sanitizeIn) :=
  ⟨by decide, by decide, by decide, by decide⟩

theorem claim_C1_witness :
    ([] : List JSNum).length ≠ zeroNN1.inputSize ∧
    (forwardV1 env0 zeroNN1 []).2.2 = List.replicate zeroNN1.outputSize (1/2) :=
  ⟨by decide, claim_C1_amended.1 env0 zeroNN1 [] (by decide)⟩

/-! ## Claim C9: forward mutates the caller-owned input array -/

/-- Claim C9 (confirmed): on a correct-length input the 12-input forward
rewrites the caller-owned input array to its sanitised form in place (and on
the mismatch path leaves it untouched), so the sensor vector of the caller can
differ after the call, as the closed instance shows; the network object itself
is returned unchanged. -/
theorem claim_C9 :
    (∀ (env : Env) (net : NN1) (inputs : List JSNum), inputs.length = net.inputSize →
      (forwardV1 env net inputs).2.1 = inputs.map sanitizeIn ∧
      (forwardV1 env net inputs).1 = net) ∧
    (∀ (env : Env) (net : NN1) (inputs : List JSNum), inputs.length ≠ net.inputSize →
      (forwardV1 env net inputs).2.1 = inputs ∧ (forwardV1 env net inputs).1 = net) ∧
    (forwardV1 env0 zeroNN1 badIn12).2.1 ≠ badIn12 := by
  refine ⟨?_, ?_, ?_⟩
  · intro env net inputs h
    unfold forwardV1
    rw [if_neg (fun hc => hc h)]
    exact ⟨rfl, rfl⟩
  · intro env net inputs h
    unfold forwardV1
    rw [if_pos h]
    exact ⟨rfl, rfl⟩
  · decide

theorem claim_C9_witness :
    badIn12.length = zeroNN1.inputSize ∧
    (forwardV1 env0 zeroNN1 badIn12).2.1 = badIn12.map sanitizeIn :=
  ⟨by decide, (claim_C9.1 env0 zeroNN1 badIn12 (by decide)).1⟩

/-! ## Claim C2: energy bounds, death transition, fitness freezing -/

theorem speedDrain_pos (env : Env) (base maxSpeed : ℚ) (v : ℚ × ℚ)
    (hb : 0 < base) (hm : 0 < maxSpeed) (hs : EnvSqrtOk env) :
    0 < speedDrain env base maxSpeed v := by
  unfold speedDrain
  have h1 : 0 ≤ env.sqrtF (v.1 ^ 2 + v.2 ^ 2) := hs _ (by positivity)
  have h2 : 0 ≤ env.sqrtF (v.1 ^ 2 + v.2 ^ 2) / maxSpeed := by positivity
  nlinarith

theorem updateM_facts (env : Env) (w h : ℚ) (c : CreatureM)
    (ha : c.alive = true) (hb : 0 < c.baseDrain) (hm : 0 < c.maxSpeed)
    (hs : EnvSqrtOk env) :
    (updateM env w h c).energy < c.energy ∧
    ((updateM env w h c).alive = true ↔ 0 < (updateM env w h c).energy) ∧
    (updateM env w h c).maxEnergy = c.maxEnergy := by
  have hgen : ∀ v : ℚ × ℚ, 0 < if c.isBursting
      then speedDrain env c.baseDrain c.maxSpeed v * 3
      else speedDrain env c.baseDrain c.maxSpeed v := by
    intro v
    split_ifs
    · have := speedDrain_pos env c.baseDrain c.maxSpeed v hb hm hs
      linarith
    · exact speedDrain_pos env c.baseDrain c.maxSpeed v hb hm hs
  unfold updateM
  rw [if_neg (by simp [ha])]
  dsimp only
  refine ⟨?_, ?_, rfl⟩
  · simp only [sub_lt_self_iff]
    exact hgen _
  · simp [decide_eq_true_iff]

theorem updateM_dead (env : Env) (w h : ℚ) (c : CreatureM) (ha : c.alive = false) :
    updateM env w h c = c := by
  unfold updateM
  rw [if_pos (by simp [ha])]

theorem eatM_facts (env : Env) (c : CreatureM) (food : List Food)
    (hle : c.energy ≤ c.maxEnergy) :
    c.energy ≤ (eatM env c food).1.energy ∧
    (eatM env c food).1.energy ≤ c.maxEnergy ∧
    (eatM env c food).1.alive = c.alive := by
  unfold eatM
  by_cases hd : c.alive = true
  · rw [if_neg (by simp [hd])]
    cases heq : eatIdx env c.pos c.radius food with
    | none => exact ⟨le_refl _, hle, rfl⟩
    | some i => exact ⟨le_min (by linarith) hle, min_le_right _ _, rfl⟩
  · rw [if_pos (by simp [hd])]
    exact ⟨le_refl _, hle, rfl⟩

theorem updateS_facts (env : Env) (w h : ℚ) (c : CreatureS)
    (ha : c.alive = true) (hb : 0 < c.energyDrain) (hm : 0 < c.maxSpeed)
    (hs : EnvSqrtOk env) :
    (updateS env w h c).energy < c.energy ∧
    ((updateS env w h c).alive = false ↔ (updateS env w h c).energy ≤ 0) ∧
    ((updateS env w h c).alive = false →
      (updateS env w h c).fitness =
        ((updateS env w h c).foodEaten : ℚ) * 100 + ((updateS env w h c).age : ℚ) * 0.1) := by
  have hpos := fun v => speedDrain_pos env c.energyDrain c.maxSpeed v hb hm hs
  unfold updateS
  rw [if_neg (by simp [ha])]
  dsimp only
  split_ifs with he
  · refine ⟨?_, ?_, fun _ => ?_⟩
    · simp only [calculateFitnessS, sub_lt_self_iff]
      exact hpos _
    · simp [calculateFitnessS, he]
    · simp [calculateFitnessS]
  · refine ⟨?_, ?_, ?_⟩
    · simp only [sub_lt_self_iff]
      exact hpos _
    · constructor
      · intro hfalse
        rw [ha] at hfalse
        exact absurd hfalse (by simp)
      · intro hle
        exact absurd hle he
    · intro hfalse
      rw [ha] at hfalse
      exact absurd hfalse (by simp)

theorem updateS_dead (env : Env) (w h : ℚ) (c : CreatureS) (ha : c.alive = false) :
    updateS env w h c = c := by
  unfold updateS
  rw [if_pos (by simp [ha])]

theorem eatS_dead (env : Env) (c : CreatureS) (food : List Food) (ha : c.alive = false) :
    eatS env c food = (c, food, false) := by
  unfold eatS
  rw [if_pos (by simp [ha])]

theorem canMateM_energy (c : CreatureM) (hc : canMateM c = true) :
    c.maxEnergy * 0.7 < c.energy := by
  unfold canMateM at hc
  have h1 := (Bool.and_eq_true _ _).mp hc
  have h2 := (Bool.and_eq_true _ _).mp h1.1
  exact of_decide_eq_true h2.2

/-- Claim C2 (corrected): while a creature lives, each update strictly drains
its energy and it dies exactly at the first tick whose post-drain energy is
at or below zero; eating keeps energy within [current, maxEnergy]; mating
under the canMate gate keeps both parents strictly positive; in the simple
variant the final fitness is written from the frozen counters at the death
transition, dead creatures are never updated or fed again, and re-running
calculateFitness is value-identical.  The lower bound of the claimed
invariant 0 <= energy <= maxEnergy fails at the death tick itself: energy is
driven strictly below zero there (see the counterexample), so energy is
nonnegative only up to the tick before death. -/
theorem claim_C2_amended (env : Env) (w h : ℚ) (hs : EnvSqrtOk env) :
    (∀ c : CreatureM, c.alive = true → 0 < c.baseDrain → 0 < c.maxSpeed →
      (updateM env w h c).energy < c.energy ∧
      ((updateM env w h c).alive = true ↔ 0 < (updateM env w h c).energy)) ∧
    (∀ c : CreatureM, c.alive = false → updateM env w h c = c) ∧
    (∀ (c : CreatureM) food, c.energy ≤ c.maxEnergy →
      c.energy ≤ (eatM env c food).1.energy ∧ (eatM env c food).1.energy ≤ c.maxEnergy) ∧
    (∀ c : CreatureS, c.alive = true → 0 < c.energyDrain → 0 < c.maxSpeed →
      (updateS env w h c).energy < c.energy ∧
      ((updateS env w h c).alive = false ↔ (updateS env w h c).energy ≤ 0) ∧
      ((updateS env w h c).alive = false →
        (updateS env w h c).fitness =
          ((updateS env w h c).foodEaten : ℚ) * 100 + ((updateS env w h c).age : ℚ) * 0.1)) ∧
    (∀ c : CreatureS, c.alive = false → updateS env w h c = c ∧
      (∀ food, eatS env c food = (c, food, false))) ∧
    (∀ c : CreatureS, (calculateFitnessS (calculateFitnessS c)).fitness
      = (calculateFitnessS c).fitness) ∧
    (∀ (c p : CreatureM) site, canMateM c = true → canMateM p = true →
      5 ≤ c.genome.bodySize → c.maxEnergy = 80 + c.genome.bodySize * 2 →
      5 ≤ p.genome.bodySize → p.maxEnergy = 80 + p.genome.bodySize * 2 →
      0 < (mateWithM env site c p).1.energy ∧ 0 < (mateWithM env site c p).2.1.energy) := by
  refine ⟨?_, ?_, ?_, ?_, ?_, ?_, ?_⟩
  · intro c ha hb hm
    exact ⟨(updateM_facts env w h c ha hb hm hs).1, (updateM_facts env w h c ha hb hm hs).2.1⟩
  · exact updateM_dead env w h
  · intro c food hle
    exact ⟨(eatM_facts env c food hle).1, (eatM_facts env c food hle).2.1⟩
  · intro c ha hb hm
    exact updateS_facts env w h c ha hb hm hs
  · intro c ha
    exact ⟨updateS_dead env w h c ha, fun food => eatS_dead env c food ha⟩
  · intro c
    simp [calculateFitnessS]
  · intro c p site hc hp hcb hcm hpb hpm
    have hce := canMateM_energy c hc
    have hpe := canMateM_energy p hp
    rw [hcm] at hce
    rw [hpm] at hpe
    constructor
    · show 0 < c.energy - 30
      nlinarith
    · show 0 < p.energy - 30
      nlinarith

/-- Counterexample to claim C2 as stated: a live simple-variant creature at
rest with energy 1/10 (reachable: the constructor grants 100 and each resting
tick drains exactly 0.15) satisfies 0 <= energy <= maxEnergy before the tick,
yet after one update its recorded energy is strictly negative: update
subtracts the full drain without clamping at zero, so the claimed invariant
0 <= energy fails at the death tick. -/
theorem claim_C2_counterexample :
    cSlow.alive = true ∧ 0 ≤ cSlow.energy ∧ cSlow.energy ≤ cSlow.maxEnergy ∧
    (updateS env0 600 600 cSlow).energy < 0 ∧ (updateS env0 600 600 cSlow).alive = false :=
  ⟨by decide, by decide, by decide, by decide, by decide⟩

theorem claim_C2_witness :
    EnvSqrtOk env0 ∧ cSlow.alive = true ∧ 0 < cSlow.energyDrain ∧ 0 < cSlow.maxSpeed ∧
    ((updateS env0 600 600 cSlow).energy < cSlow.energy ∧
      ((updateS env0 600 600 cSlow).alive = false ↔ (updateS env0 600 600 cSlow).energy ≤ 0) ∧
      ((updateS env0 600 600 cSlow).alive = false →
        (updateS env0 600 600 cSlow).fitness =
          ((updateS env0 600 600 cSlow).foodEaten : ℚ) * 100 +
          ((updateS env0 600 600 cSlow).age : ℚ) * 0.1)) :=
  ⟨envSqrtOk_env0, by decide, by decide, by decide,
    (claim_C2_amended env0 600 600 envSqrtOk_env0).2.2.2.1 cSlow (by decide) (by decide) (by decide)⟩

/-! ## Claim C10: mating never kills a parent -/

/-- Claim C10 (confirmed): mateWith charges each parent exactly the fixed 30
and touches no alive flag, and under the canMate gate (energy above 0.7 of
maxEnergy, with maxEnergy = 80 + 2 * bodySize fixed by the constructor and
bodySize at least 5 for every reachable genome) both parents remain strictly
positive, so the mating step alone can never trigger the death transition.
The closure conjuncts show bodySize at least 5 (indeed within [5, 45]) is an
invariant of all three genome producers. -/
theorem claim_C10 (env : Env) (site : ℕ) (c p : CreatureM)
    (hc : canMateM c = true) (hp : canMateM p = true)
    (hcb : 5 ≤ c.genome.bodySize) (hcm : c.maxEnergy = 80 + c.genome.bodySize * 2)
    (hpb : 5 ≤ p.genome.bodySize) (hpm : p.maxEnergy = 80 + p.genome.bodySize * 2) :
    (0 < (mateWithM env site c p).1.energy ∧
      (mateWithM env site c p).1.alive = c.alive ∧
      (mateWithM env site c p).1.energy = c.energy - 30) ∧
    (0 < (mateWithM env site c p).2.1.energy ∧
      (mateWithM env site c p).2.1.alive = p.alive ∧
      (mateWithM env site c p).2.1.energy = p.energy - 30) ∧
    (∀ (e2 : Env) (s2 : ℕ), RandRange e2 →
      8 ≤ (randomGenome e2 s2).bodySize ∧ (randomGenome e2 s2).bodySize ≤ 30) ∧
    (∀ (e2 : Env) (s2 : ℕ) (g : Genome), 5 ≤ g.bodySize → g.bodySize ≤ 45 →
      5 ≤ (mutateGenome e2 s2 g).bodySize ∧ (mutateGenome e2 s2 g).bodySize ≤ 45) ∧
    (∀ (e2 : Env) (s2 : ℕ) (g1 g2 : Genome), RandRange e2 →
      5 ≤ g1.bodySize → g1.bodySize ≤ 45 → 5 ≤ g2.bodySize → g2.bodySize ≤ 45 →
      5 ≤ (blendGenomes e2 s2 g1 g2).bodySize ∧ (blendGenomes e2 s2 g1 g2).bodySize ≤ 45) := by
  have hce := canMateM_energy c hc
  have hpe := canMateM_energy p hp
  rw [hcm] at hce
  rw [hpm] at hpe
  refine ⟨⟨?_, rfl, rfl⟩, ⟨?_, rfl, rfl⟩, ?_, ?_, ?_⟩
  · show 0 < c.energy - 30
    nlinarith
  · show 0 < p.energy - 30
    nlinarith
  · intro e2 s2 hr
    obtain ⟨h0, h1⟩ := hr s2 0
    constructor
    · show 8 ≤ 8 + e2.rand s2 0 * 22
      nlinarith
    · show 8 + e2.rand s2 0 * 22 ≤ 30
      nlinarith
  · intro e2 s2 g hg5 hg45
    show 5 ≤ mutateScalar e2 s2 0 g.mutationRate 5 45 0.15 g.bodySize ∧
      mutateScalar e2 s2 0 g.mutationRate 5 45 0.15 g.bodySize ≤ 45
    unfold mutateScalar
    split_ifs
    · exact clamp_mem 5 45 _ (by norm_num)
    · exact ⟨hg5, hg45⟩
  · intro e2 s2 g1 g2 hr h15 h145 h25 h245
    obtain ⟨h0, h1⟩ := hr s2 0
    have hb := lerp_between g1.bodySize g2.bodySize (e2.rand s2 0) h0 (le_of_lt h1)
    constructor
    · show 5 ≤ lerpQ g1.bodySize g2.bodySize (e2.rand s2 0)
      have : (5:ℚ) ≤ min g1.bodySize g2.bodySize := le_min h15 h25
      linarith [hb.1]
    · show lerpQ g1.bodySize g2.bodySize (e2.rand s2 0) ≤ 45
      have : max g1.bodySize g2.bodySize ≤ (45:ℚ) := max_le h145 h245
      linarith [hb.2]

theorem claim_C10_witness :
    canMateM cMate = true ∧ 5 ≤ cMate.genome.bodySize ∧
    cMate.maxEnergy = 80 + cMate.genome.bodySize * 2 ∧
    0 < (mateWithM env0 0 cMate cMate).1.energy :=
  ⟨by decide, by decide, by decide,
    ((claim_C10 env0 0 cMate cMate (by decide) (by decide) (by decide) (by decide)
      (by decide) (by decide)).1).1⟩

/-! ## Claim C3: crossover blend and uniform-pick laws -/

theorem getD_range_map {α : Type _} (n : ℕ) (f : ℕ → α) (i : ℕ) (d : α) (h : i < n) :
    ((List.range n).map f).getD i d = f i := by
  rw [List.getD_eq_getElem?_getD, List.getElem?_map, List.getElem?_range h]
  rfl

theorem flatten_range_map {α : Type _} (a b : ℕ) (f : ℕ → α) :
    (((List.range a).map (fun i => (List.range b).map (fun j => f (i * b + j)))).flatten)
      = (List.range (a * b)).map f := by
  induction a with
  | zero => simp
  | succ a ih =>
    rw [List.range_succ, List.map_append, List.flatten_append, ih]
    simp only [List.map_cons, List.map_nil, List.flatten_cons, List.flatten_nil, List.append_nil]
    rw [Nat.succ_mul, List.range_add, List.map_append, List.map_map]
    rfl

theorem map_getD_self {α : Type _} (l : List α) (d : α) :
    (List.range l.length).map (fun k => l.getD k d) = l := by
  apply List.ext_getElem
  · simp
  · intro i h1 h2
    simp only [List.getElem_map, List.getElem_range]
    rw [List.getD_eq_getElem?_getD, List.getElem?_eq_getElem h2]
    rfl

theorem row_bias_append {α : Type _} (b : ℕ) (f : ℕ → α) (i : ℕ) :
    (List.range b).map (fun j => f (i * (b + 1) + j)) ++ [f (i * (b + 1) + b)]
      = (List.range (b + 1)).map (fun j => f (i * (b + 1) + j)) := by
  rw [List.range_succ, List.map_append]
  rfl

theorem flatten_rows_with_bias (a b : ℕ) (g : ℕ → ℚ) :
    ((List.range a).map (fun i =>
        (List.range b).map (fun j =>
          ((((List.range a).map (fun r => (List.range b).map (fun c => g (r * (b + 1) + c)))).getD i []).getD j 0))
        ++ [((List.range a).map (fun r => g (r * (b + 1) + b))).getD i 0])).flatten
      = (List.range (a * (b + 1))).map g := by
  have e1 : ∀ i ∈ List.range a,
      (List.range b).map (fun j =>
        ((((List.range a).map (fun r => (List.range b).map (fun c => g (r * (b + 1) + c)))).getD i []).getD j 0))
      ++ [((List.range a).map (fun r => g (r * (b + 1) + b))).getD i 0]
      = (List.range (b + 1)).map (fun j => g (i * (b + 1) + j)) := by
    intro i hi
    have hia := List.mem_range.mp hi
    rw [← row_bias_append]
    congr 1
    · apply List.map_congr_left
      intro j hj
      rw [getD_range_map _ _ _ _ hia, getD_range_map _ _ _ _ (List.mem_range.mp hj)]
    · rw [getD_range_map _ _ _ _ hia]
  rw [List.map_congr_left e1, flatten_range_map]

theorem getWeights_length (net : NN1) : (getWeights net).length = totalW net := by
  unfold getWeights totalW
  rw [List.length_append]
  congr 1 <;>
  · rw [List.length_flatten, List.map_map]
    simp only [Function.comp_def, List.length_append, List.length_map, List.length_range,
      List.length_singleton]
    rw [List.map_const', List.sum_replicate, List.length_range, smul_eq_mul]

theorem getWeights_setWeights (net : NN1) (ws : List ℚ) (hl : ws.length = totalW net)
    (h0 : ws ≠ []) : getWeights (setWeights net ws) = ws := by
  unfold setWeights
  rw [if_neg (by simp [h0])]
  unfold getWeights
  dsimp only
  rw [flatten_rows_with_bias net.hiddenSize net.inputSize (fun k => orZero (ws.getD k 0)),
    flatten_rows_with_bias net.outputSize net.hiddenSize
      (fun k => orZero (ws.getD (net.hiddenSize * (net.inputSize + 1) + k) 0))]
  have hA : (List.range (net.hiddenSize * (net.inputSize + 1)
        + net.outputSize * (net.hiddenSize + 1))).map (fun k => orZero (ws.getD k 0))
      = (List.range (net.hiddenSize * (net.inputSize + 1))).map (fun k => orZero (ws.getD k 0))
        ++ (List.range (net.outputSize * (net.hiddenSize + 1))).map
            (fun k => orZero (ws.getD (net.hiddenSize * (net.inputSize + 1) + k) 0)) := by
    rw [List.range_add, List.map_append, List.map_map]
    rfl
  rw [← hA]
  have hlen : net.hiddenSize * (net.inputSize + 1) + net.outputSize * (net.hiddenSize + 1)
      = ws.length := by rw [hl]; rfl
  rw [hlen]
  have e2 : ∀ k ∈ List.range ws.length, orZero (ws.getD k 0) = ws.getD k 0 :=
    fun k _ => orZero_eq _
  rw [List.map_congr_left e2, map_getD_self]

theorem matrix_entry {α : Type _} (a b : ℕ) (g : ℕ → ℕ → α) (i j : ℕ) (d : List α) (d2 : α)
    (hi : i < a) (hj : j < b) :
    (((List.range a).map (fun r => (List.range b).map (g r))).getD i d).getD j d2 = g i j := by
  rw [getD_range_map _ _ _ _ hi, getD_range_map _ _ _ _ hj]

theorem crossover1_getWeights (env : Env) (site : ℕ) (net partner : NN1)
    (hpos : 0 < totalW net) :
    getWeights (crossover1 env site net partner)
      = (List.range (getWeights net).length).map (fun i =>
          env.rand site i * (getWeights net).getD i 0
          + (1 - env.rand site i) * (getWeights partner).getD i 0) := by
  show getWeights (setWeights (freshNN1 env (site + 2) net.inputSize net.hiddenSize net.outputSize)
      ((List.range (getWeights net).length).map (fun i =>
        env.rand site i * (getWeights net).getD i 0
        + (1 - env.rand site i) * (getWeights partner).getD i 0))) = _
  apply getWeights_setWeights
  · rw [List.length_map, List.length_range, getWeights_length]
    rfl
  · apply List.ne_nil_of_length_pos
    rw [List.length_map, List.length_range, getWeights_length]
    exact hpos

/-- Claim C3 (confirmed): in the adaptive (blend) crossover every flattened
weight/bias position of the child is alpha * self + (1 - alpha) * partner with
an independent alpha drawn from [0, 1), hence lies on the closed segment
between the parent values, and the child adaptive parameters are the parental
arithmetic means; the uniform-pick crossover of the 8-12-2 variant picks each
position from one of the two parents, so it satisfies the same segment law at
every weight and bias position. -/
theorem claim_C3 (env : Env) (site : ℕ) (net partner : NN1) (hr : RandRange env)
    (hin : partner.inputSize = net.inputSize) (hhid : partner.hiddenSize = net.hiddenSize)
    (hout : partner.outputSize = net.outputSize) (hpos : 0 < totalW net) :
    (∀ k, k < totalW net →
      min ((getWeights net).getD k 0) ((getWeights partner).getD k 0)
        ≤ (getWeights (crossover1 env site net partner)).getD k 0 ∧
      (getWeights (crossover1 env site net partner)).getD k 0
        ≤ max ((getWeights net).getD k 0) ((getWeights partner).getD k 0)) ∧
    (crossover1 env site net partner).mutationRate
      = (net.mutationRate + partner.mutationRate) / 2 ∧
    (crossover1 env site net partner).mutationMagnitude
      = (net.mutationMagnitude + partner.mutationMagnitude) / 2 ∧
    (∀ (e2 : Env) (s2 : ℕ) (n2 p2 : NN2) (i j : ℕ), i < n2.hiddenSize → j < n2.inputSize →
      min ((n2.weightsIH.getD i []).getD j 0) ((p2.weightsIH.getD i []).getD j 0)
        ≤ ((crossover2 e2 s2 n2 p2).weightsIH.getD i []).getD j 0 ∧
      ((crossover2 e2 s2 n2 p2).weightsIH.getD i []).getD j 0
        ≤ max ((n2.weightsIH.getD i []).getD j 0) ((p2.weightsIH.getD i []).getD j 0)) ∧
    (∀ (e2 : Env) (s2 : ℕ) (n2 p2 : NN2) (i : ℕ), i < n2.hiddenSize →
      min (n2.biasH.getD i 0) (p2.biasH.getD i 0)
        ≤ (crossover2 e2 s2 n2 p2).biasH.getD i 0 ∧
      (crossover2 e2 s2 n2 p2).biasH.getD i 0
        ≤ max (n2.biasH.getD i 0) (p2.biasH.getD i 0)) ∧
    (∀ (e2 : Env) (s2 : ℕ) (n2 p2 : NN2) (i j : ℕ), i < n2.outputSize → j < n2.hiddenSize →
      min ((n2.weightsHO.getD i []).getD j 0) ((p2.weightsHO.getD i []).getD j 0)
        ≤ ((crossover2 e2 s2 n2 p2).weightsHO.getD i []).getD j 0 ∧
      ((crossover2 e2 s2 n2 p2).weightsHO.getD i []).getD j 0
        ≤ max ((n2.weightsHO.getD i []).getD j 0) ((p2.weightsHO.getD i []).getD j 0)) ∧
    (∀ (e2 : Env) (s2 : ℕ) (n2 p2 : NN2) (i : ℕ), i < n2.outputSize →
      min (n2.biasO.getD i 0) (p2.biasO.getD i 0)
        ≤ (crossover2 e2 s2 n2 p2).biasO.getD i 0 ∧
      (crossover2 e2 s2 n2 p2).biasO.getD i 0
        ≤ max (n2.biasO.getD i 0) (p2.biasO.getD i 0)) := by
  refine ⟨?_, rfl, rfl, ?_, ?_, ?_, ?_⟩
  · intro k hk
    rw [crossover1_getWeights env site net partner hpos,
      getD_range_map _ _ _ _ (by rw [getWeights_length]; exact hk)]
    exact blend_between _ _ _ (hr site k).1 (le_of_lt (hr site k).2)
  · intro e2 s2 n2 p2 i j hi hj
    have e : ((crossover2 e2 s2 n2 p2).weightsIH.getD i []).getD j 0
        = (if e2.rand s2 (i * n2.inputSize + j) < 0.5
           then (n2.weightsIH.getD i []).getD j 0 else (p2.weightsIH.getD i []).getD j 0) := by
      unfold crossover2
      dsimp only
      exact matrix_entry _ _ _ i j _ _ hi hj
    rw [e]
    split_ifs
    · exact ⟨min_le_left _ _, le_max_left _ _⟩
    · exact ⟨min_le_right _ _, le_max_right _ _⟩
  · intro e2 s2 n2 p2 i hi
    have e : (crossover2 e2 s2 n2 p2).biasH.getD i 0
        = (if e2.rand s2 (n2.hiddenSize * n2.inputSize + i) < 0.5
           then n2.biasH.getD i 0 else p2.biasH.getD i 0) := by
      unfold crossover2
      dsimp only
      exact getD_range_map _ _ _ _ hi
    rw [e]
    split_ifs
    · exact ⟨min_le_left _ _, le_max_left _ _⟩
    · exact ⟨min_le_right _ _, le_max_right _ _⟩
  · intro e2 s2 n2 p2 i j hi hj
    have e : ((crossover2 e2 s2 n2 p2).weightsHO.getD i []).getD j 0
        = (if e2.rand s2 (n2.hiddenSize * n2.inputSize + n2.hiddenSize + i * n2.hiddenSize + j) < 0.5
           then (n2.weightsHO.getD i []).getD j 0 else (p2.weightsHO.getD i []).getD j 0) := by
      unfold crossover2
      dsimp only
      exact matrix_entry _ _ _ i j _ _ hi hj
    rw [e]
    split_ifs
    · exact ⟨min_le_left _ _, le_max_left _ _⟩
    · exact ⟨min_le_right _ _, le_max_right _ _⟩
  · intro e2 s2 n2 p2 i hi
    have e : (crossover2 e2 s2 n2 p2).biasO.getD i 0
        = (if e2.rand s2 (n2.hiddenSize * n2.inputSize + n2.hiddenSize
              + n2.outputSize * n2.hiddenSize + i) < 0.5
           then n2.biasO.getD i 0 else p2.biasO.getD i 0) := by
      unfold crossover2
      dsimp only
      exact getD_range_map _ _ _ _ hi
    rw [e]
    split_ifs
    · exact ⟨min_le_left _ _, le_max_left _ _⟩
    · exact ⟨min_le_right _ _, le_max_right _ _⟩

theorem claim_C3_witness :
    (RandRange env0 ∧ nn1b.inputSize = nn1a.inputSize ∧ nn1b.hiddenSize = nn1a.hiddenSize ∧
      nn1b.outputSize = nn1a.outputSize ∧ 0 < totalW nn1a) ∧
    (∀ k, k < totalW nn1a →
      min ((getWeights nn1a).getD k 0) ((getWeights nn1b).getD k 0)
        ≤ (getWeights (crossover1 env0 0 nn1a nn1b)).getD k 0 ∧
      (getWeights (crossover1 env0 0 nn1a nn1b)).getD k 0
        ≤ max ((getWeights nn1a).getD k 0) ((getWeights nn1b).getD k 0)) :=
  ⟨⟨randRange_env0, rfl, rfl, rfl, by decide⟩,
    (claim_C3 env0 0 nn1a nn1b randRange_env0 rfl rfl rfl (by decide)).1⟩

/-! ## Claim C5: at most one mating event per creature per tick -/

theorem participants_append (l : List (ℕ × ℕ)) (e : ℕ × ℕ) :
    participants (l ++ [e]) = participants l ++ [e.1, e.2] := by
  induction l with
  | nil => rfl
  | cons a l ih => simp [participants, ih]

theorem participants_length (l : List (ℕ × ℕ)) :
    (participants l).length = 2 * l.length := by
  induction l with
  | nil => rfl
  | cons a l ih =>
    simp only [participants, List.length_cons, ih]
    omega

theorem getD_set_ne {α : Type _} (l : List α) (i j : ℕ) (a d : α) (h : i ≠ j) :
    (l.set i a).getD j d = l.getD j d := by
  rw [List.getD_eq_getElem?_getD, List.getD_eq_getElem?_getD, List.getElem?_set_ne h]

theorem getD_set_self {α : Type _} (l : List α) (i : ℕ) (a d : α) (h : i < l.length) :
    (l.set i a).getD i d = a := by
  rw [List.getD_eq_getElem?_getD, List.getElem?_set_self h]
  rfl

theorem nodup_lt_bound (l : List ℕ) (n : ℕ) (hn : l.Nodup) (hb : ∀ x ∈ l, x < n) :
    l.length ≤ n := by
  have h1 : l.toFinset.card = l.length := List.toFinset_card_of_nodup hn
  have h2 : l.toFinset ⊆ Finset.range n := by
    intro x hx
    rw [Finset.mem_range]
    exact hb x (List.mem_toFinset.mp hx)
  have h3 := Finset.card_le_card h2
  rw [h1, Finset.card_range] at h3
  exact h3

theorem canMateM_cooldown (c : CreatureM) (hc : canMateM c = true) : c.matingCooldown = 0 := by
  unfold canMateM at hc
  have h1 := (Bool.and_eq_true _ _).mp hc
  exact of_decide_eq_true h1.2

theorem tryMateIdx_some (env : Env) (cs : List CreatureM) (i j : ℕ)
    (h : tryMateIdx env cs i = some j) :
    j < cs.length ∧ j ≠ i ∧ canMateM (cs.getD j cdefaultM) = true := by
  unfold tryMateIdx at h
  split_ifs at h with hc
  · have hmem := List.mem_of_find?_eq_some h
    have hpred := List.find?_some h
    dsimp only at hpred
    have h1 := (Bool.and_eq_true _ _).mp hpred
    have h2 := (Bool.and_eq_true _ _).mp h1.1
    have h3 := (Bool.and_eq_true _ _).mp h2.1
    have h4 := (Bool.and_eq_true _ _).mp h3.1
    exact ⟨List.mem_range.mp hmem, of_decide_eq_true h4.1, h3.2⟩

theorem mateWithM_cooldowns (env : Env) (site : ℕ) (c p : CreatureM) :
    (mateWithM env site c p).1.matingCooldown = 200 ∧
    (mateWithM env site c p).2.1.matingCooldown = 200 :=
  ⟨rfl, rfl⟩

theorem matingStep_inv (env : Env) (n k : ℕ) (hk : k < n) (s : MState)
    (h : MInv n s) : MInv n (matingStep env s k) := by
  obtain ⟨hlen, hnew, hnd, hbound, hcool⟩ := h
  unfold matingStep
  dsimp only
  split_ifs with hg
  · cases htry : tryMateIdx env s.cs k with
    | none => exact ⟨hlen, hnew, hnd, hbound, hcool⟩
    | some j =>
      obtain ⟨hjlt, hjne, hjcm⟩ := tryMateIdx_some env s.cs k j htry
      have hkcm : canMateM (s.cs.getD k cdefaultM) = true := by
        have h1 := (Bool.and_eq_true _ _).mp hg
        have h2 := (Bool.and_eq_true _ _).mp h1.1
        exact h2.2
      have hkc0 := canMateM_cooldown _ hkcm
      have hjc0 := canMateM_cooldown _ hjcm
      have hknotin : k ∉ participants s.events := fun hmem => (hcool k hmem) hkc0
      have hjnotin : j ∉ participants s.events := fun hmem => (hcool j hmem) hjc0
      have hklt : k < s.cs.length := by rw [hlen]; exact hk
      have hjlt2 : j < (s.cs.set k (mateWithM env k (s.cs.getD k cdefaultM)
          (s.cs.getD j cdefaultM)).1).length := by
        rw [List.length_set]
        exact hjlt
      refine ⟨?_, ?_, ?_, ?_, ?_⟩
      · simp [hlen]
      · simp [hnew]
      · rw [participants_append, List.nodup_append]
        refine ⟨hnd, by simp [Ne.symm hjne], ?_⟩
        intro x hx hx2
        simp only [List.mem_cons, List.mem_singleton] at hx2
        rcases hx2 with rfl | rfl | hfalse
        · exact hknotin hx
        · exact hjnotin hx
        · cases hfalse
      · intro p hp
        rw [participants_append] at hp
        rcases List.mem_append.mp hp with hp | hp
        · exact hbound p hp
        · simp only [List.mem_cons, List.mem_singleton] at hp
          rcases hp with rfl | rfl | hfalse
          · exact hk
          · rw [← hlen]; exact hjlt
          · cases hfalse
      · intro p hp
        rw [participants_append] at hp
        rcases List.mem_append.mp hp with hp | hp
        · have hpk : p ≠ k := fun he => hknotin (he ▸ hp)
          have hpj : p ≠ j := fun he => hjnotin (he ▸ hp)
          dsimp only
          rw [getD_set_ne _ _ _ _ _ (Ne.symm hpj), getD_set_ne _ _ _ _ _ (Ne.symm hpk)]
          exact hcool p hp
        · simp only [List.mem_cons, List.mem_singleton] at hp
          rcases hp with rfl | rfl | hfalse
          · dsimp only
            rw [getD_set_ne _ _ _ _ _ hjne, getD_set_self _ _ _ _ hklt,
              (mateWithM_cooldowns env p (s.cs.getD p cdefaultM) (s.cs.getD j cdefaultM)).1]
            norm_num
          · dsimp only
            rw [getD_set_self _ _ _ _ hjlt2,
              (mateWithM_cooldowns env k (s.cs.getD k cdefaultM) (s.cs.getD p cdefaultM)).2]
            norm_num
          · cases hfalse
  · exact ⟨hlen, hnew, hnd, hbound, hcool⟩

/-- Claim C5 (confirmed): over one realtime mating pass, no creature index
occurs in two recorded mating events (neither as initiator nor as partner) --
after an event both parties carry the 200-tick cooldown, which falsifies
canMate for the rest of the pass, so a consumed mate is never offered to a
third party; one newborn is queued per event and appended only after the
pass, and the newborn count is at most floor of half the population present
when the pass began. -/
theorem claim_C5 (env : Env) (cs : List CreatureM) :
    (participants (matingPass env cs).events).Nodup ∧
    (matingPass env cs).newborns.length = (matingPass env cs).events.length ∧
    2 * (matingPass env cs).events.length ≤ cs.length ∧
    (matingPass env cs).newborns.length ≤ cs.length / 2 := by
  have hinv : MInv cs.length (matingPass env cs) := by
    unfold matingPass
    apply foldl_inv (MInv cs.length) (matingStep env)
    · intro t a ha ht
      exact matingStep_inv env cs.length a (List.mem_range.mp ha) t ht
    · refine ⟨rfl, rfl, List.nodup_nil, ?_, ?_⟩ <;>
        · intro p hp
          cases hp
  obtain ⟨hlen, hnew, hnd, hbound, hcool⟩ := hinv
  have hplen := participants_length (matingPass env cs).events
  have hble := nodup_lt_bound _ cs.length hnd hbound
  rw [hplen] at hble
  refine ⟨hnd, hnew, hble, ?_⟩
  rw [hnew, Nat.le_div_iff_mul_le (by norm_num)]
  omega

/-! ## Claim C8: what a decision observes inside one tick -/

theorem eatM_food_sublist (env : Env) (c : CreatureM) (food : List Food) :
    (eatM env c food).2.Sublist food := by
  unfold eatM
  split_ifs
  · cases heq : eatIdx env c.pos c.radius food with
    | none => exact List.Sublist.refl food
    | some i => exact List.eraseIdx_sublist food i
  · exact List.Sublist.refl food

theorem getD_append_lt {α : Type _} (l l2 : List α) (i : ℕ) (d : α) (h : i < l.length) :
    (l ++ l2).getD i d = l.getD i d :=
  List.getD_append l l2 d i h

theorem getD_append_self {α : Type _} (l : List α) (x d : α) :
    (l ++ [x]).getD l.length d = x := by
  rw [List.getD_eq_getElem?_getD, List.getElem?_append_right (le_refl _)]
  simp

theorem decideStep_inv (env : Env) (w h : ℚ) (cs : List CreatureM) (food : List Food)
    (k : ℕ) (hk : k < cs.length) (s : DState) (hinv : DInv cs food k s) :
    DInv cs food (k + 1) (decideStep env w h s k) := by
  obtain ⟨scs, sfood, srecs⟩ := s
  obtain ⟨hlen, hsub, hagree, hreclen, hrecs⟩ := hinv
  dsimp only at hlen hsub hagree hreclen hrecs
  unfold decideStep DInv
  dsimp only
  refine ⟨?_, ?_, ?_, ?_, ?_⟩
  · rw [List.length_set]
    exact hlen
  · exact (eatM_food_sublist env _ sfood).trans hsub
  · intro j hj
    rw [getD_set_ne _ _ _ _ _ (by omega : k ≠ j)]
    exact hagree j (by omega)
  · rw [List.length_append, hreclen]
    rfl
  · intro i hi
    by_cases hik : i < k
    · rw [getD_append_lt _ _ _ _ (by rw [hreclen]; exact hik)]
      exact hrecs i hik
    · have hieq : i = k := by omega
      subst hieq
      have he : (srecs ++ [(sfood, scs)]).getD i ([], []) = (sfood, scs) := by
        rw [← hreclen]
        exact getD_append_self srecs (sfood, scs) ([], [])
      rw [he]
      exact ⟨hsub, fun j hj => hagree j hj⟩

theorem decidePhase_prefix (env : Env) (w h : ℚ) (cs : List CreatureM) (food : List Food) :
    ∀ k, k ≤ cs.length →
      DInv cs food k ((List.range k).foldl (decideStep env w h) ⟨cs, food, []⟩) := by
  intro k
  induction k with
  | zero =>
    intro _
    exact ⟨rfl, List.Sublist.refl food, fun j _ => rfl, rfl, fun i hi => absurd hi (by omega)⟩
  | succ k ih =>
    intro hk1
    rw [List.range_succ, List.foldl_append]
    exact decideStep_inv env w h cs food k (by omega) _ (ih (by omega))

/-- Claim C8 (corrected): the think/update/eat loop is interleaved per
creature, so a decision does NOT observe the start-of-tick snapshot; what
holds instead is exactly this: creature i observes the current food list --
the start-of-tick food minus every item already eaten by creatures before it
this tick (a sublist of the start-of-tick food) -- and observes creatures at
positions i and later still in their start-of-tick state, while creatures
earlier in iteration order are seen post-move and post-eat. -/
theorem claim_C8_amended (env : Env) (w h : ℚ) (cs : List CreatureM) (food : List Food) :
    (decidePhase env w h cs food).recs.length = cs.length ∧
    (∀ i, i < cs.length →
      ((decidePhase env w h cs food).recs.getD i ([], [])).1.Sublist food ∧
      (∀ j, i ≤ j →
        ((decidePhase env w h cs food).recs.getD i ([], [])).2.getD j cdefaultM
          = cs.getD j cdefaultM)) := by
  have hinv := decidePhase_prefix env w h cs food cs.length (le_refl _)
  obtain ⟨_, _, _, hreclen, hrecs⟩ := hinv
  exact ⟨hreclen, hrecs⟩

/-- Counterexample to claim C8 as stated: two creatures and one food item;
creature 0 moves onto the item and eats it during its interleaved
think/update/eat slot, so the food list creature 1 senses in the same tick is
already empty, not the start-of-tick food set the claim requires. -/
theorem claim_C8_counterexample :
    ((decidePhase env0 600 600 [cA, cB] [mkFoodM 100 100]).recs.getD 1 ([], [])).1 = [] ∧
    ((decidePhase env0 600 600 [cA, cB] [mkFoodM 100 100]).recs.getD 1 ([], [])).1
      ≠ [mkFoodM 100 100] :=
  ⟨by decide, by decide⟩

theorem claim_C8_witness :
    (1 < ([cA, cB] : List CreatureM).length) ∧
    (((decidePhase env0 600 600 [cA, cB] [mkFoodM 100 100]).recs.getD 1 ([], [])).1.Sublist
        [mkFoodM 100 100] ∧
      (∀ j, 1 ≤ j →
        ((decidePhase env0 600 600 [cA, cB] [mkFoodM 100 100]).recs.getD 1 ([], [])).2.getD j
            cdefaultM
          = ([cA, cB] : List CreatureM).getD j cdefaultM)) :=
  ⟨by decide,
    (claim_C8_amended env0 600 600 [cA, cB] [mkFoodM 100 100]).2 1 (by decide)⟩

/-! ## Claim C6: the generational rebuild -/

theorem clone2_eq (b : NN2) : clone2 b = b := by
  unfold clone2 copyMatrix
  simp [List.map_id']

theorem getD_append_ge {α : Type _} (l l2 : List α) (n : ℕ) (d : α) (h : l.length ≤ n) :
    (l ++ l2).getD n d = l2.getD (n - l.length) d := by
  rw [List.getD_eq_getElem?_getD, List.getD_eq_getElem?_getD, List.getElem?_append_right h]

theorem tournamentSelect_isSome (env : Env) (site : ℕ) (pop : List CreatureS)
    (hne : pop ≠ []) : (tournamentSelect env site pop).isSome = true := by
  unfold tournamentSelect
  rw [if_neg (by simp [hne])]
  have hpos : 0 < pop.length := List.length_pos.mpr hne
  have hmin : min 3 pop.length = (min 3 pop.length - 1) + 1 := by omega
  rw [hmin, List.range_succ_eq_map, List.foldl_cons]
  apply foldl_inv (fun (b : Option CreatureS) => b.isSome = true)
  · intro t a _ ht
    cases t with
    | none => simp at ht
    | some bb =>
      dsimp only
      split_ifs <;> rfl
  · rfl

/-- Claim C6 (confirmed): rebuilding a scored population of 10 with elitism 2
and target size 10 produces exactly 10 creatures; the first two carry brains
bit-identical (all four weight structures equal) to the top two of the
fitness-sorted pre-rebuild population, taken through the constructor clone
without any mutation; and each of the remaining 8 slots is produced by the
two-parent branch -- tournament selection twice, then Creature.crossover
(uniform brain crossover plus mutation) -- because tournament selection never
fails on a nonempty population, so neither the asexual nor the
random-creature fallback is ever taken here. -/
theorem claim_C6 (env : Env) (mRate w h : ℚ) (cs : List CreatureS) (hlen : cs.length = 10) :
    (nextGen env mRate w h 10 cs).length = 10 ∧
    ((nextGen env mRate w h 10 cs).getD 0 cdefaultS).brain
      = ((sortByFitness cs).getD 0 cdefaultS).brain ∧
    ((nextGen env mRate w h 10 cs).getD 1 cdefaultS).brain
      = ((sortByFitness cs).getD 1 cdefaultS).brain ∧
    (∀ k, 2 ≤ k → k < 10 → ∃ p1 p2,
      tournamentSelect env (Nat.pair (Nat.pair (k - 2) 0) 10) (sortByFitness cs) = some p1 ∧
      tournamentSelect env (Nat.pair (Nat.pair (k - 2) 1) 10) (sortByFitness cs) = some p2 ∧
      (nextGen env mRate w h 10 cs).getD k cdefaultS
        = crossoverS env (Nat.pair (k - 2) 2) mRate w h p1 p2) := by
  have hsortlen : (sortByFitness cs).length = 10 := by
    unfold sortByFitness
    rw [List.length_mergeSort, List.length_map, hlen]
  have hne : sortByFitness cs ≠ [] := by
    apply List.ne_nil_of_length_pos
    omega
  have hmin : min eliteCount (sortByFitness cs).length = 2 := by
    rw [hsortlen]
    rfl
  unfold nextGen
  rw [hmin]
  have helitelen : ((List.range 2).map (eliteAt env w h (sortByFitness cs))).length = 2 := by
    rw [List.length_map, List.length_range]
  refine ⟨?_, ?_, ?_, ?_⟩
  · rw [List.length_append, helitelen, List.length_map, List.length_range]
  · rw [getD_append_lt _ _ _ _ (by rw [helitelen]; omega),
      getD_range_map _ _ _ _ (by omega : (0:ℕ) < 2)]
    show (clone2 ((sortByFitness cs).getD 0 cdefaultS).brain) = _
    rw [clone2_eq]
  · rw [getD_append_lt _ _ _ _ (by rw [helitelen]; omega),
      getD_range_map _ _ _ _ (by omega : (1:ℕ) < 2)]
    show (clone2 ((sortByFitness cs).getD 1 cdefaultS).brain) = _
    rw [clone2_eq]
  · intro k hk2 hk10
    obtain ⟨p1, hp1⟩ := Option.isSome_iff_exists.mp
      (tournamentSelect_isSome env (Nat.pair (Nat.pair (k - 2) 0) 10) (sortByFitness cs) hne)
    obtain ⟨p2, hp2⟩ := Option.isSome_iff_exists.mp
      (tournamentSelect_isSome env (Nat.pair (Nat.pair (k - 2) 1) 10) (sortByFitness cs) hne)
    refine ⟨p1, p2, hp1, hp2, ?_⟩
    rw [getD_append_ge _ _ _ _ (by rw [helitelen]; omega), helitelen,
      getD_range_map _ _ _ _ (by omega : k - 2 < 10 - 2)]
    unfold fillOne
    rw [hp1, hp2]

theorem claim_C6_witness :
    (List.replicate 10 cdefaultS).length = 10 ∧
    ((nextGen env0 (1/10) 600 600 10 (List.replicate 10 cdefaultS)).length = 10 ∧
      ((nextGen env0 (1/10) 600 600 10 (List.replicate 10 cdefaultS)).getD 0 cdefaultS).brain
        = ((sortByFitness (List.replicate 10 cdefaultS)).getD 0 cdefaultS).brain ∧
      ((nextGen env0 (1/10) 600 600 10 (List.replicate 10 cdefaultS)).getD 1 cdefaultS).brain
        = ((sortByFitness (List.replicate 10 cdefaultS)).getD 1 cdefaultS).brain ∧
      (∀ k, 2 ≤ k → k < 10 → ∃ p1 p2,
        tournamentSelect env0 (Nat.pair (Nat.pair (k - 2) 0) 10)
          (sortByFitness (List.replicate 10 cdefaultS)) = some p1 ∧
        tournamentSelect env0 (Nat.pair (Nat.pair (k - 2) 1) 10)
          (sortByFitness (List.replicate 10 cdefaultS)) = some p2 ∧
        (nextGen env0 (1/10) 600 600 10 (List.replicate 10 cdefaultS)).getD k cdefaultS
          = crossoverS env0 (Nat.pair (k - 2) 2) (1/10) 600 600 p1 p2)) :=
  ⟨by decide, claim_C6 env0 (1/10) 600 600 (List.replicate 10 cdefaultS) (by decide)⟩

/-! ## Concrete evaluations: the models are not vacuous -/

/-- Two eligible creatures in contact produce exactly one mating event in a
pass: creature 0 initiates with partner 1, one newborn is queued, both
parents leave with the 200-tick cooldown and the 30-point energy bill. -/
theorem matingPass_event_example :
    (matingPass env0 [cMate, cMateB]).events = [(0, 1)] ∧
    (matingPass env0 [cMate, cMateB]).newborns.length = 1 ∧
    ((matingPass env0 [cMate, cMateB]).cs.getD 0 cdefaultM).matingCooldown = 200 ∧
    ((matingPass env0 [cMate, cMateB]).cs.getD 1 cdefaultM).matingCooldown = 200 ∧
    ((matingPass env0 [cMate, cMateB]).cs.getD 0 cdefaultM).energy = 40 :=
  ⟨by decide, by decide, by decide, by decide, by decide⟩

/-- With every blend coefficient pinned at one half, the blend crossover of
the two tiny networks lands exactly on the parental midpoints, in flattening
order weightIH, biasH, weightHO, biasO. -/
theorem crossover1_value_example :
    getWeights (crossover1 env0 7 nn1a nn1b) = [3/2, 0, 3, 1/2] := by decide

/-- A concrete setWeights/getWeights round trip. -/
theorem setWeights_value_example :
    getWeights (setWeights nn1a [8, 7, 6, 5]) = [8, 7, 6, 5] := by decide
